import Mathlib

/-!
Verification of the PoseMath module (`src/utils/posemath.ts`) of the
poses repository.  The TypeScript module delegates its linear algebra to
three.js (`Matrix4.compose`, `Matrix4.decompose`, `Matrix4.multiplyMatrices`,
`Matrix4.determinant`, `Quaternion.normalize`, `Quaternion.setFromEuler`,
`Euler.setFromRotationMatrix`); those routines are embedded below following
the three.js implementations, with real numbers in place of IEEE doubles.
`formatNumber` manipulates decimal digit strings, so it is embedded over
exact rationals, where the decimal computations are executable.
-/

namespace Poses

/-- Pose.position and three.js `Vector3`: a real triple. -/
@[ext]
structure Vec3 where
  x : ℝ
  y : ℝ
  z : ℝ

/-- Pose.quaternion and three.js `Quaternion`: a real quadruple `(x, y, z, w)`. -/
@[ext]
structure Quat where
  x : ℝ
  y : ℝ
  z : ℝ
  w : ℝ

/-- The `Pose` interface of posemath.ts. -/
@[ext]
structure Pose where
  position : Vec3
  quaternion : Quat

/-- three.js `Matrix4`: 16 elements stored in column-major order, so `e0 e1 e2 e3`
is the first column and the translation sits in `e12 e13 e14`. -/
@[ext]
structure Matrix4 where
  e0 : ℝ
  e1 : ℝ
  e2 : ℝ
  e3 : ℝ
  e4 : ℝ
  e5 : ℝ
  e6 : ℝ
  e7 : ℝ
  e8 : ℝ
  e9 : ℝ
  e10 : ℝ
  e11 : ℝ
  e12 : ℝ
  e13 : ℝ
  e14 : ℝ
  e15 : ℝ

noncomputable section

/-- three.js `Matrix4.compose(position, quaternion, scale)`. -/
def Matrix4.compose (position : Vec3) (quaternion : Quat) (scale : Vec3) : Matrix4 :=
  let x := quaternion.x
  let y := quaternion.y
  let z := quaternion.z
  let w := quaternion.w
  let x2 := x + x
  let y2 := y + y
  let z2 := z + z
  let xx := x * x2
  let xy := x * y2
  let xz := x * z2
  let yy := y * y2
  let yz := y * z2
  let zz := z * z2
  let wx := w * x2
  let wy := w * y2
  let wz := w * z2
  let sx := scale.x
  let sy := scale.y
  let sz := scale.z
  ⟨(1 - (yy + zz)) * sx, (xy + wz) * sx, (xz - wy) * sx, 0,
   (xy - wz) * sy, (1 - (xx + zz)) * sy, (yz + wx) * sy, 0,
   (xz + wy) * sz, (yz - wx) * sz, (1 - (xx + yy)) * sz, 0,
   position.x, position.y, position.z, 1⟩

/-- posemath.ts `createTransformMatrix`: compose with scale `(1,1,1)`. -/
def createTransformMatrix (pose : Pose) : Matrix4 :=
  Matrix4.compose pose.position pose.quaternion ⟨1, 1, 1⟩

/-- three.js `Matrix4.multiplyMatrices(a, b)` (column-major storage). -/
def Matrix4.multiplyMatrices (a b : Matrix4) : Matrix4 :=
  let a11 := a.e0
  let a12 := a.e4
  let a13 := a.e8
  let a14 := a.e12
  let a21 := a.e1
  let a22 := a.e5
  let a23 := a.e9
  let a24 := a.e13
  let a31 := a.e2
  let a32 := a.e6
  let a33 := a.e10
  let a34 := a.e14
  let a41 := a.e3
  let a42 := a.e7
  let a43 := a.e11
  let a44 := a.e15
  let b11 := b.e0
  let b12 := b.e4
  let b13 := b.e8
  let b14 := b.e12
  let b21 := b.e1
  let b22 := b.e5
  let b23 := b.e9
  let b24 := b.e13
  let b31 := b.e2
  let b32 := b.e6
  let b33 := b.e10
  let b34 := b.e14
  let b41 := b.e3
  let b42 := b.e7
  let b43 := b.e11
  let b44 := b.e15
  ⟨a11 * b11 + a12 * b21 + a13 * b31 + a14 * b41,
   a21 * b11 + a22 * b21 + a23 * b31 + a24 * b41,
   a31 * b11 + a32 * b21 + a33 * b31 + a34 * b41,
   a41 * b11 + a42 * b21 + a43 * b31 + a44 * b41,
   a11 * b12 + a12 * b22 + a13 * b32 + a14 * b42,
   a21 * b12 + a22 * b22 + a23 * b32 + a24 * b42,
   a31 * b12 + a32 * b22 + a33 * b32 + a34 * b42,
   a41 * b12 + a42 * b22 + a43 * b32 + a44 * b42,
   a11 * b13 + a12 * b23 + a13 * b33 + a14 * b43,
   a21 * b13 + a22 * b23 + a23 * b33 + a24 * b43,
   a31 * b13 + a32 * b23 + a33 * b33 + a34 * b43,
   a41 * b13 + a42 * b23 + a43 * b33 + a44 * b43,
   a11 * b14 + a12 * b24 + a13 * b34 + a14 * b44,
   a21 * b14 + a22 * b24 + a23 * b34 + a24 * b44,
   a31 * b14 + a32 * b24 + a33 * b34 + a34 * b44,
   a41 * b14 + a42 * b24 + a43 * b34 + a44 * b44⟩

/-- posemath.ts `applyTransform`: `poseMatrix.clone().multiply(transformMatrix)`,
which is `multiplyMatrices(poseMatrix, transformMatrix)`. -/
def applyTransform (poseMatrix transformMatrix : Matrix4) : Matrix4 :=
  Matrix4.multiplyMatrices poseMatrix transformMatrix

/-- three.js `Matrix4.determinant()`, exactly the cofactor expansion used there. -/
def Matrix4.determinant (m : Matrix4) : ℝ :=
  let n11 := m.e0
  let n12 := m.e4
  let n13 := m.e8
  let n14 := m.e12
  let n21 := m.e1
  let n22 := m.e5
  let n23 := m.e9
  let n24 := m.e13
  let n31 := m.e2
  let n32 := m.e6
  let n33 := m.e10
  let n34 := m.e14
  let n41 := m.e3
  let n42 := m.e7
  let n43 := m.e11
  let n44 := m.e15
  n41 * (n14 * n23 * n32 - n13 * n24 * n32 - n14 * n22 * n33 +
         n12 * n24 * n33 + n13 * n22 * n34 - n12 * n23 * n34) +
  n42 * (n11 * n23 * n34 - n11 * n24 * n33 + n14 * n21 * n33 -
         n13 * n21 * n34 + n13 * n24 * n31 - n14 * n23 * n31) +
  n43 * (n11 * n24 * n32 - n11 * n22 * n34 - n14 * n21 * n32 +
         n12 * n21 * n34 + n14 * n22 * n31 - n12 * n24 * n31) +
  n44 * (-n13 * n22 * n31 - n11 * n23 * n32 + n11 * n22 * n33 +
         n13 * n21 * n32 + n12 * n23 * n31 - n12 * n21 * n33)

/-- three.js `Vector3.length()`. -/
def vec3Length (x y z : ℝ) : ℝ := Real.sqrt (x * x + y * y + z * z)

/-- three.js `Quaternion.setFromRotationMatrix(m)` (Shepperd's method, with the
exact branch conditions of the three.js source). -/
def setFromRotationMatrix (m : Matrix4) : Quat :=
  let m11 := m.e0
  let m12 := m.e4
  let m13 := m.e8
  let m21 := m.e1
  let m22 := m.e5
  let m23 := m.e9
  let m31 := m.e2
  let m32 := m.e6
  let m33 := m.e10
  let trace := m11 + m22 + m33
  if trace > 0 then
    let s := 0.5 / Real.sqrt (trace + 1)
    ⟨(m32 - m23) * s, (m13 - m31) * s, (m21 - m12) * s, 0.25 / s⟩
  else if m11 > m22 ∧ m11 > m33 then
    let s := 2 * Real.sqrt (1 + m11 - m22 - m33)
    ⟨0.25 * s, (m12 + m21) / s, (m13 + m31) / s, (m32 - m23) / s⟩
  else if m22 > m33 then
    let s := 2 * Real.sqrt (1 + m22 - m11 - m33)
    ⟨(m12 + m21) / s, 0.25 * s, (m23 + m32) / s, (m13 - m31) / s⟩
  else
    let s := 2 * Real.sqrt (1 + m33 - m11 - m22)
    ⟨(m13 + m31) / s, (m23 + m32) / s, 0.25 * s, (m21 - m12) / s⟩

/-- three.js `Matrix4.decompose(position, quaternion, scale)`. -/
def Matrix4.decompose (m : Matrix4) : Vec3 × Quat × Vec3 :=
  let sx0 := vec3Length m.e0 m.e1 m.e2
  let sy := vec3Length m.e4 m.e5 m.e6
  let sz := vec3Length m.e8 m.e9 m.e10
  let det := m.determinant
  let sx := if det < 0 then -sx0 else sx0
  let position : Vec3 := ⟨m.e12, m.e13, m.e14⟩
  let invSX := 1 / sx
  let invSY := 1 / sy
  let invSZ := 1 / sz
  let m1 : Matrix4 :=
    ⟨m.e0 * invSX, m.e1 * invSX, m.e2 * invSX, m.e3,
     m.e4 * invSY, m.e5 * invSY, m.e6 * invSY, m.e7,
     m.e8 * invSZ, m.e9 * invSZ, m.e10 * invSZ, m.e11,
     m.e12, m.e13, m.e14, m.e15⟩
  let quaternion := setFromRotationMatrix m1
  (position, quaternion, ⟨sx, sy, sz⟩)

/-- posemath.ts `matrixToPose`: decompose and keep position and quaternion. -/
def matrixToPose (matrix : Matrix4) : Pose :=
  let d := matrix.decompose
  ⟨d.1, d.2.1⟩

/-- posemath.ts `matrixToArray`: re-expose the column-major elements as a
row-major 2D grid. -/
def matrixToArray (matrix : Matrix4) : List (List ℝ) :=
  [[matrix.e0, matrix.e4, matrix.e8, matrix.e12],
   [matrix.e1, matrix.e5, matrix.e9, matrix.e13],
   [matrix.e2, matrix.e6, matrix.e10, matrix.e14],
   [matrix.e3, matrix.e7, matrix.e11, matrix.e15]]

/-- posemath.ts `quaternionMagnitude`. -/
def quaternionMagnitude (q : Quat) : ℝ :=
  Real.sqrt (q.x * q.x + q.y * q.y + q.z * q.z + q.w * q.w)

/-- posemath.ts `normalizeQuaternion`, via three.js `Quaternion.normalize()`:
zero length yields the identity quaternion, otherwise each component is
scaled by `1 / length`. -/
def normalizeQuaternion (q : Quat) : Quat :=
  let l := Real.sqrt (q.x * q.x + q.y * q.y + q.z * q.z + q.w * q.w)
  if l = 0 then ⟨0, 0, 0, 1⟩
  else ⟨q.x * (1 / l), q.y * (1 / l), q.z * (1 / l), q.w * (1 / l)⟩

/-- posemath.ts `isQuaternionNormalized` with explicit tolerance argument. -/
def isQuaternionNormalized (q : Quat) (tolerance : ℝ) : Prop :=
  |quaternionMagnitude q - 1| < tolerance

/-- posemath.ts `identityPose`. -/
def identityPose : Pose :=
  ⟨⟨0, 0, 0⟩, ⟨0, 0, 0, 1⟩⟩

/-- posemath.ts `identityTransform`: returns `identityPose()`. -/
def identityTransform : Pose :=
  identityPose

/-- PoseInput.tsx `handleNormalize`: normalize only when the magnitude is
positive, otherwise leave the quaternion unchanged (the call is skipped). -/
def handleNormalize (q : Quat) : Quat :=
  if quaternionMagnitude q > 0 then normalizeQuaternion q else q

/-- The six rotation orders accepted by posemath.ts. -/
inductive EulerOrder
  | XYZ
  | XZY
  | YXZ
  | YZX
  | ZXY
  | ZYX
deriving DecidableEq, Repr

/-- posemath.ts `eulerToQuaternion`, via three.js `Quaternion.setFromEuler`. -/
def eulerToQuaternion (x y z : ℝ) (order : EulerOrder) : Quat :=
  let c1 := Real.cos (x / 2)
  let c2 := Real.cos (y / 2)
  let c3 := Real.cos (z / 2)
  let s1 := Real.sin (x / 2)
  let s2 := Real.sin (y / 2)
  let s3 := Real.sin (z / 2)
  match order with
  | .XYZ =>
    ⟨s1 * c2 * c3 + c1 * s2 * s3, c1 * s2 * c3 - s1 * c2 * s3,
     c1 * c2 * s3 + s1 * s2 * c3, c1 * c2 * c3 - s1 * s2 * s3⟩
  | .YXZ =>
    ⟨s1 * c2 * c3 + c1 * s2 * s3, c1 * s2 * c3 - s1 * c2 * s3,
     c1 * c2 * s3 - s1 * s2 * c3, c1 * c2 * c3 + s1 * s2 * s3⟩
  | .ZXY =>
    ⟨s1 * c2 * c3 - c1 * s2 * s3, c1 * s2 * c3 + s1 * c2 * s3,
     c1 * c2 * s3 + s1 * s2 * c3, c1 * c2 * c3 - s1 * s2 * s3⟩
  | .ZYX =>
    ⟨s1 * c2 * c3 - c1 * s2 * s3, c1 * s2 * c3 + s1 * c2 * s3,
     c1 * c2 * s3 - s1 * s2 * c3, c1 * c2 * c3 + s1 * s2 * s3⟩
  | .YZX =>
    ⟨s1 * c2 * c3 + c1 * s2 * s3, c1 * s2 * c3 + s1 * c2 * s3,
     c1 * c2 * s3 - s1 * s2 * c3, c1 * c2 * c3 - s1 * s2 * s3⟩
  | .XZY =>
    ⟨s1 * c2 * c3 - c1 * s2 * s3, c1 * s2 * c3 - s1 * c2 * s3,
     c1 * c2 * s3 + s1 * s2 * c3, c1 * c2 * c3 + s1 * s2 * s3⟩

/-- three.js `MathUtils.clamp(value, min, max)`. -/
def clamp (value lo hi : ℝ) : ℝ := max lo (min hi value)

/-- JS `Math.atan2(y, x)`, realized as the argument of the complex number
`x + y i` (the two agree away from signed zeros, which reals do not have). -/
def atan2 (y x : ℝ) : ℝ := Complex.arg ⟨x, y⟩

/-- three.js `Matrix4.makeRotationFromQuaternion(q)`: compose with zero
translation and unit scale. -/
def makeRotationFromQuaternion (q : Quat) : Matrix4 :=
  Matrix4.compose ⟨0, 0, 0⟩ q ⟨1, 1, 1⟩

/-- three.js `Euler.setFromRotationMatrix(m, order)` (assumes the upper 3x3 is
a pure rotation), with the exact near-lock thresholds of the source. -/
def eulerFromRotationMatrix (m : Matrix4) (order : EulerOrder) : Vec3 :=
  let m11 := m.e0
  let m12 := m.e4
  let m13 := m.e8
  let m21 := m.e1
  let m22 := m.e5
  let m23 := m.e9
  let m31 := m.e2
  let m32 := m.e6
  let m33 := m.e10
  match order with
  | .XYZ =>
    if |m13| < 0.9999999 then
      ⟨atan2 (-m23) m33, Real.arcsin (clamp m13 (-1) 1), atan2 (-m12) m11⟩
    else
      ⟨atan2 m32 m22, Real.arcsin (clamp m13 (-1) 1), 0⟩
  | .YXZ =>
    if |m23| < 0.9999999 then
      ⟨Real.arcsin (-(clamp m23 (-1) 1)), atan2 m13 m33, atan2 m21 m22⟩
    else
      ⟨Real.arcsin (-(clamp m23 (-1) 1)), atan2 (-m31) m11, 0⟩
  | .ZXY =>
    if |m32| < 0.9999999 then
      ⟨Real.arcsin (clamp m32 (-1) 1), atan2 (-m31) m33, atan2 (-m12) m22⟩
    else
      ⟨Real.arcsin (clamp m32 (-1) 1), 0, atan2 m21 m11⟩
  | .ZYX =>
    if |m31| < 0.9999999 then
      ⟨atan2 m32 m33, Real.arcsin (-(clamp m31 (-1) 1)), atan2 m21 m11⟩
    else
      ⟨0, Real.arcsin (-(clamp m31 (-1) 1)), atan2 (-m12) m22⟩
  | .YZX =>
    if |m21| < 0.9999999 then
      ⟨atan2 (-m23) m22, atan2 (-m31) m11, Real.arcsin (clamp m21 (-1) 1)⟩
    else
      ⟨0, atan2 m13 m33, Real.arcsin (clamp m21 (-1) 1)⟩
  | .XZY =>
    if |m12| < 0.9999999 then
      ⟨atan2 m32 m22, atan2 m13 m11, Real.arcsin (-(clamp m12 (-1) 1))⟩
    else
      ⟨atan2 (-m23) m33, 0, Real.arcsin (-(clamp m12 (-1) 1))⟩

/-- posemath.ts `quaternionToEuler`, via three.js `Euler.setFromQuaternion`:
build the rotation matrix and extract the angles. -/
def quaternionToEuler (q : Quat) (order : EulerOrder) : Vec3 :=
  eulerFromRotationMatrix (makeRotationFromQuaternion q) order

/-- The mathematical 4x4 matrix held by a `Matrix4`: row `i`, column `j` of the
linear map on homogeneous coordinates (the column-major element `e(4*j+i)`). -/
def toMat (m : Matrix4) : Matrix (Fin 4) (Fin 4) ℝ :=
  !![m.e0, m.e4, m.e8, m.e12;
     m.e1, m.e5, m.e9, m.e13;
     m.e2, m.e6, m.e10, m.e14;
     m.e3, m.e7, m.e11, m.e15]

/-- Entry `[i][j]` of a display grid, with zero default out of range. -/
def gridEntry (g : List (List ℝ)) (i j : ℕ) : ℝ :=
  (g.getD i []).getD j 0

/-- three.js `Vector3.applyMatrix4(m)`: the action of the matrix on a point,
with perspective division. -/
def Vec3.applyMatrix4 (v : Vec3) (m : Matrix4) : Vec3 :=
  let w := 1 / (m.e3 * v.x + m.e7 * v.y + m.e11 * v.z + m.e15)
  ⟨(m.e0 * v.x + m.e4 * v.y + m.e8 * v.z + m.e12) * w,
   (m.e1 * v.x + m.e5 * v.y + m.e9 * v.z + m.e13) * w,
   (m.e2 * v.x + m.e6 * v.y + m.e10 * v.z + m.e14) * w⟩

end

/-- Decimal digits of a natural number, via the fuel-based core routine that
JS `Number.prototype.toString` would produce for naturals. -/
def natDigits (n : ℕ) : List Char := Nat.toDigits 10 n

/-- Left-pad a digit list with `'0'` up to length `p`. -/
def padZeros (s : List Char) (p : ℕ) : List Char :=
  List.replicate (p - s.length) '0' ++ s

/-- JS `Number.prototype.toFixed(digits)` over exact rationals: the sign is
taken off first, then the magnitude is rounded half-up at `digits` decimal
places and printed with exactly `digits` fraction digits. -/
def jsToFixed (x : ℚ) (digits : ℕ) : String :=
  let sgn := if x < 0 then "-" else ""
  let num := x.num.natAbs
  let den := x.den
  let n := (num * 10 ^ digits * 2 + den) / (2 * den)
  if digits = 0 then
    sgn ++ String.mk (natDigits n)
  else
    sgn ++ String.mk (natDigits (n / 10 ^ digits)) ++ "." ++
      String.mk (padZeros (natDigits (n % 10 ^ digits)) digits)

/-- JS `s.replace(/\.?0+$/, '')`: remove the maximal run of trailing zeros
(if any), together with a directly preceding decimal point. -/
def stripTrailingZeros (s : String) : String :=
  let r := s.data.reverse
  match r with
  | [] => s
  | c :: _ =>
    if c = '0' then
      let r1 := r.dropWhile (fun ch => ch = '0')
      let r2 := match r1 with
        | '.' :: rest => rest
        | _ => r1
      String.mk r2.reverse
    else s

/-- posemath.ts `formatNumber(n, precision)` (the source defaults `precision`
to 6): collapse tiny magnitudes to `"0"`, otherwise `toFixed` then strip
trailing zeros and a trailing decimal point. -/
def formatNumber (n : ℚ) (precision : ℕ) : String :=
  if |n| < mkRat 1 (10 ^ 10) then "0"
  else stripTrailingZeros (jsToFixed n precision)

/-- C7 counterexample: the claimed example `formatNumber(-0.0000000001, 6) = "0"`
is false on the code: `|-1e-10| < 1e-10` fails (the guard is strict), so the
value goes through `toFixed`/strip and comes out as `"-0"`. -/
theorem formatNumber_boundary_example_false :
    formatNumber (mkRat (-1) (10 ^ 10)) 6 ≠ "0" ∧
      formatNumber (mkRat (-1) (10 ^ 10)) 6 = "-0" := by
  decide

/-- C7 (amended): `formatNumber` returns `"0"` exactly when `|n| < 1e-10`;
otherwise it rounds `n` to `precision` decimal digits half-up (JS `toFixed`)
and strips trailing zeros together with a trailing decimal point.  In
particular `formatNumber(0.00000000001, 6) = "0"` and
`formatNumber(1.5000, 4) = "1.5"`, but at the boundary
`formatNumber(-0.0000000001, 6) = "-0"` (not `"0"`, since `1e-10 < 1e-10`
fails). -/
theorem formatNumber_spec_amended :
    (∀ (n : ℚ) (p : ℕ), |n| < mkRat 1 (10 ^ 10) → formatNumber n p = "0") ∧
      (∀ (n : ℚ) (p : ℕ), ¬ |n| < mkRat 1 (10 ^ 10) →
        formatNumber n p = stripTrailingZeros (jsToFixed n p)) ∧
      formatNumber (mkRat 1 (10 ^ 11)) 6 = "0" ∧
      formatNumber (mkRat 3 2) 4 = "1.5" ∧
      formatNumber (mkRat (-1) (10 ^ 10)) 6 = "-0" := by
  refine ⟨fun n p h => ?_, fun n p h => ?_, by decide, by decide, by decide⟩
  · unfold formatNumber
    rw [if_pos h]
  · unfold formatNumber
    rw [if_neg h]

/-- C7 witness: the two guarded clauses of the amended statement applied at
concrete inputs. -/
theorem formatNumber_spec_amended_witness :
    formatNumber (mkRat 1 (10 ^ 12)) 3 = "0" ∧
      formatNumber (mkRat 2 1) 5 = stripTrailingZeros (jsToFixed (mkRat 2 1) 5) :=
  ⟨formatNumber_spec_amended.1 (mkRat 1 (10 ^ 12)) 3 (by decide),
   formatNumber_spec_amended.2.1 (mkRat 2 1) 5 (by decide)⟩

/-- C10: a value whose magnitude is at least `1e-10` but which rounds to zero
at the display precision is rendered as `"-0"`: the negative-zero suppression
only applies below the `1e-10` guard.  Concretely,
`formatNumber(-0.0000001, 6) = "-0"`. -/
theorem formatNumber_neg_zero_leak :
    ¬ |mkRat (-1) (10 ^ 7)| < mkRat 1 (10 ^ 10) ∧
      formatNumber (mkRat (-1) (10 ^ 7)) 6 = "-0" := by
  decide

/-- C9 counterexample: normalizing the zero quaternion does not divide by
zero and is not meaningless: three.js `Quaternion.normalize` guards zero
length internally and returns the identity quaternion `(0,0,0,1)`, a
well-defined unit quaternion. -/
theorem normalizeQuaternion_zero_defined :
    normalizeQuaternion ⟨0, 0, 0, 0⟩ = (⟨0, 0, 0, 1⟩ : Quat) ∧
      quaternionMagnitude (normalizeQuaternion ⟨0, 0, 0, 0⟩) = 1 := by
  have h : normalizeQuaternion ⟨0, 0, 0, 0⟩ = (⟨0, 0, 0, 1⟩ : Quat) := by
    unfold normalizeQuaternion
    norm_num
  refine ⟨h, ?_⟩
  rw [h]
  unfold quaternionMagnitude
  norm_num

/-- C9 (amended): a zero-magnitude quaternion is not normalized by rescaling;
`normalizeQuaternion` itself returns the identity quaternion in that case
(three.js internal guard), and the call-site guard `handleNormalize` of
PoseInput.tsx skips the call entirely, leaving the quaternion unchanged. -/
theorem normalizeQuaternion_zero_guard (q : Quat)
    (h : quaternionMagnitude q = 0) :
    normalizeQuaternion q = ⟨0, 0, 0, 1⟩ ∧ handleNormalize q = q := by
  have hl : Real.sqrt (q.x * q.x + q.y * q.y + q.z * q.z + q.w * q.w) = 0 := h
  constructor
  · unfold normalizeQuaternion
    rw [if_pos hl]
  · unfold handleNormalize
    rw [if_neg]
    rw [h]
    exact lt_irrefl 0

/-- C9 witness: the amended statement at the zero quaternion. -/
theorem normalizeQuaternion_zero_guard_witness :
    normalizeQuaternion ⟨0, 0, 0, 0⟩ = ⟨0, 0, 0, 1⟩ ∧
      handleNormalize ⟨0, 0, 0, 0⟩ = ⟨0, 0, 0, 0⟩ :=
  normalizeQuaternion_zero_guard ⟨0, 0, 0, 0⟩ (by unfold quaternionMagnitude; norm_num)

/-- C6: for `|q| > 0`, `normalizeQuaternion` rescales each component by
`1/|q|`, the normalized quaternion has magnitude exactly 1, and
`quaternionMagnitude` is the euclidean norm `sqrt(x²+y²+z²+w²)`. -/
theorem normalizeQuaternion_scales (q : Quat) (h : 0 < quaternionMagnitude q) :
    normalizeQuaternion q =
        ⟨q.x * (1 / quaternionMagnitude q), q.y * (1 / quaternionMagnitude q),
         q.z * (1 / quaternionMagnitude q), q.w * (1 / quaternionMagnitude q)⟩ ∧
      quaternionMagnitude (normalizeQuaternion q) = 1 ∧
      quaternionMagnitude q = Real.sqrt (q.x ^ 2 + q.y ^ 2 + q.z ^ 2 + q.w ^ 2) := by
  have e : quaternionMagnitude q =
      Real.sqrt (q.x * q.x + q.y * q.y + q.z * q.z + q.w * q.w) := rfl
  have hne : Real.sqrt (q.x * q.x + q.y * q.y + q.z * q.z + q.w * q.w) ≠ 0 :=
    ne_of_gt (e ▸ h)
  have h1 : normalizeQuaternion q =
      ⟨q.x * (1 / quaternionMagnitude q), q.y * (1 / quaternionMagnitude q),
       q.z * (1 / quaternionMagnitude q), q.w * (1 / quaternionMagnitude q)⟩ := by
    unfold normalizeQuaternion
    rw [if_neg hne, e]
  refine ⟨h1, ?_, by rw [e]; congr 1; ring⟩
  rw [h1]
  have hs : (0 : ℝ) ≤ q.x * q.x + q.y * q.y + q.z * q.z + q.w * q.w := by
    nlinarith [mul_self_nonneg q.x, mul_self_nonneg q.y, mul_self_nonneg q.z,
      mul_self_nonneg q.w]
  have hsq : Real.sqrt (q.x * q.x + q.y * q.y + q.z * q.z + q.w * q.w) ^ 2 =
      q.x * q.x + q.y * q.y + q.z * q.z + q.w * q.w := Real.sq_sqrt hs
  have hsne : q.x * q.x + q.y * q.y + q.z * q.z + q.w * q.w ≠ 0 := by
    intro h0
    exact hne (by rw [h0, Real.sqrt_zero])
  unfold quaternionMagnitude at *
  have harg : q.x * (1 / Real.sqrt (q.x * q.x + q.y * q.y + q.z * q.z + q.w * q.w)) *
        (q.x * (1 / Real.sqrt (q.x * q.x + q.y * q.y + q.z * q.z + q.w * q.w))) +
      q.y * (1 / Real.sqrt (q.x * q.x + q.y * q.y + q.z * q.z + q.w * q.w)) *
        (q.y * (1 / Real.sqrt (q.x * q.x + q.y * q.y + q.z * q.z + q.w * q.w))) +
      q.z * (1 / Real.sqrt (q.x * q.x + q.y * q.y + q.z * q.z + q.w * q.w)) *
        (q.z * (1 / Real.sqrt (q.x * q.x + q.y * q.y + q.z * q.z + q.w * q.w))) +
      q.w * (1 / Real.sqrt (q.x * q.x + q.y * q.y + q.z * q.z + q.w * q.w)) *
        (q.w * (1 / Real.sqrt (q.x * q.x + q.y * q.y + q.z * q.z + q.w * q.w))) =
      (q.x * q.x + q.y * q.y + q.z * q.z + q.w * q.w) /
        Real.sqrt (q.x * q.x + q.y * q.y + q.z * q.z + q.w * q.w) ^ 2 := by
    field_simp
    try ring
  rw [harg, hsq, div_self hsne]
  try exact Real.sqrt_one

/-- C6 witness: the quaternion `(0,0,0,2)` has positive magnitude and the
theorem applies to it. -/
theorem normalizeQuaternion_scales_witness :
    normalizeQuaternion ⟨0, 0, 0, 2⟩ =
        ⟨0 * (1 / quaternionMagnitude ⟨0, 0, 0, 2⟩),
         0 * (1 / quaternionMagnitude ⟨0, 0, 0, 2⟩),
         0 * (1 / quaternionMagnitude ⟨0, 0, 0, 2⟩),
         2 * (1 / quaternionMagnitude ⟨0, 0, 0, 2⟩)⟩ ∧
      quaternionMagnitude (normalizeQuaternion ⟨0, 0, 0, 2⟩) = 1 ∧
      quaternionMagnitude ⟨0, 0, 0, 2⟩ =
        Real.sqrt ((0 : ℝ) ^ 2 + (0 : ℝ) ^ 2 + (0 : ℝ) ^ 2 + (2 : ℝ) ^ 2) :=
  normalizeQuaternion_scales ⟨0, 0, 0, 2⟩ (by
    unfold quaternionMagnitude
    norm_num)

/-- C4: `identityPose`/`identityTransform` both give position `(0,0,0)` and
quaternion `(0,0,0,1)`, and the matrix they compose to is a two-sided
identity for `applyTransform`. -/
theorem applyTransform_identity :
    (identityPose = ⟨⟨0, 0, 0⟩, ⟨0, 0, 0, 1⟩⟩ ∧ identityTransform = identityPose) ∧
      ∀ A : Matrix4,
        applyTransform (createTransformMatrix identityTransform) A = A ∧
          applyTransform A (createTransformMatrix identityTransform) = A := by
  refine ⟨⟨rfl, rfl⟩, fun A => ⟨?_, ?_⟩⟩ <;>
    (apply Matrix4.ext <;>
      (simp only [applyTransform, Matrix4.multiplyMatrices, createTransformMatrix,
        Matrix4.compose, identityTransform, identityPose]
       try ring))

/-- C2: `applyTransform(A, B)` computes the matrix product `A · B` (the pose
matrix left-multiplying the transform matrix, the local-frame convention),
and this is in general different from `B · A`. -/
theorem applyTransform_is_left_mul :
    (∀ A B : Matrix4, toMat (applyTransform A B) = toMat A * toMat B) ∧
      ∃ A B : Matrix4, toMat (applyTransform A B) ≠ toMat B * toMat A := by
  constructor
  · intro A B
    ext i j
    fin_cases i <;> fin_cases j <;>
      (simp [toMat, applyTransform, Matrix4.multiplyMatrices, Matrix.mul_apply,
        Fin.sum_univ_four]
       try ring)
  · refine ⟨⟨1, 0, 0, 0, 0, 1, 0, 0, 0, 0, 1, 0, 1, 0, 0, 1⟩,
      ⟨2, 0, 0, 0, 0, 1, 0, 0, 0, 0, 1, 0, 0, 0, 0, 1⟩, fun h => ?_⟩
    have h03 := congrFun (congrFun h 0) 3
    simp [toMat, applyTransform, Matrix4.multiplyMatrices, Matrix.mul_apply,
      Fin.sum_univ_four] at h03

/-- C8: `matrixToArray` exposes the column-major elements as the row-major
grid of the mathematical matrix; for a composed pose matrix, column 3 of
rows 0..2 is the pose position, row 3 is `(0,0,0,1)`, and entry `[i][j]` is
the coefficient with which input coordinate `j` contributes to output
coordinate `i` of the matrix action on a point. -/
theorem matrixToArray_row_major :
    (∀ m : Matrix4, matrixToArray m =
        [[toMat m 0 0, toMat m 0 1, toMat m 0 2, toMat m 0 3],
         [toMat m 1 0, toMat m 1 1, toMat m 1 2, toMat m 1 3],
         [toMat m 2 0, toMat m 2 1, toMat m 2 2, toMat m 2 3],
         [toMat m 3 0, toMat m 3 1, toMat m 3 2, toMat m 3 3]]) ∧
      ∀ P : Pose,
        (gridEntry (matrixToArray (createTransformMatrix P)) 0 3 = P.position.x ∧
          gridEntry (matrixToArray (createTransformMatrix P)) 1 3 = P.position.y ∧
          gridEntry (matrixToArray (createTransformMatrix P)) 2 3 = P.position.z) ∧
        (matrixToArray (createTransformMatrix P)).getD 3 [] = [0, 0, 0, 1] ∧
        ∀ v : Vec3,
          v.applyMatrix4 (createTransformMatrix P) =
            ⟨gridEntry (matrixToArray (createTransformMatrix P)) 0 0 * v.x +
               gridEntry (matrixToArray (createTransformMatrix P)) 0 1 * v.y +
               gridEntry (matrixToArray (createTransformMatrix P)) 0 2 * v.z +
               gridEntry (matrixToArray (createTransformMatrix P)) 0 3,
             gridEntry (matrixToArray (createTransformMatrix P)) 1 0 * v.x +
               gridEntry (matrixToArray (createTransformMatrix P)) 1 1 * v.y +
               gridEntry (matrixToArray (createTransformMatrix P)) 1 2 * v.z +
               gridEntry (matrixToArray (createTransformMatrix P)) 1 3,
             gridEntry (matrixToArray (createTransformMatrix P)) 2 0 * v.x +
               gridEntry (matrixToArray (createTransformMatrix P)) 2 1 * v.y +
               gridEntry (matrixToArray (createTransformMatrix P)) 2 2 * v.z +
               gridEntry (matrixToArray (createTransformMatrix P)) 2 3⟩ := by
  refine ⟨fun m => ?_, fun P => ⟨⟨rfl, rfl, rfl⟩, rfl, fun v => ?_⟩⟩
  · simp [matrixToArray, toMat]
  · apply Vec3.ext <;>
    · simp only [Vec3.applyMatrix4, gridEntry, matrixToArray, createTransformMatrix,
        Matrix4.compose, List.getD]
      norm_num

/-- C3: composing the pose at `(1,0,0)` with identity rotation with the pure
rotation `(0,0,√2/2,√2/2)` (90° about Z) in the local frame gives back
position `(1,0,0)` and exactly the transform's quaternion. -/
theorem compose_example_rotZ90 :
    matrixToPose (applyTransform
        (createTransformMatrix ⟨⟨1, 0, 0⟩, ⟨0, 0, 0, 1⟩⟩)
        (createTransformMatrix
          ⟨⟨0, 0, 0⟩, ⟨0, 0, Real.sqrt 2 / 2, Real.sqrt 2 / 2⟩⟩)) =
      ⟨⟨1, 0, 0⟩, ⟨0, 0, Real.sqrt 2 / 2, Real.sqrt 2 / 2⟩⟩ := by
  have h2 : Real.sqrt 2 * Real.sqrt 2 = 2 := Real.mul_self_sqrt (by norm_num)
  have h2ne : Real.sqrt 2 ≠ 0 := by
    intro h0
    rw [h0] at h2
    norm_num at h2
  have hA : createTransformMatrix ⟨⟨1, 0, 0⟩, ⟨0, 0, 0, 1⟩⟩ =
      ⟨1, 0, 0, 0, 0, 1, 0, 0, 0, 0, 1, 0, 1, 0, 0, 1⟩ := by
    apply Matrix4.ext <;> norm_num [createTransformMatrix, Matrix4.compose]
  have hB : createTransformMatrix
        ⟨⟨0, 0, 0⟩, ⟨0, 0, Real.sqrt 2 / 2, Real.sqrt 2 / 2⟩⟩ =
      ⟨0, 1, 0, 0, -1, 0, 0, 0, 0, 0, 1, 0, 0, 0, 0, 1⟩ := by
    apply Matrix4.ext <;> simp only [createTransformMatrix, Matrix4.compose]
    all_goals first
      | (norm_num; done)
      | linear_combination h2 / 2
      | linear_combination -(h2 / 2)
  have hM : applyTransform
        (createTransformMatrix ⟨⟨1, 0, 0⟩, ⟨0, 0, 0, 1⟩⟩)
        (createTransformMatrix
          ⟨⟨0, 0, 0⟩, ⟨0, 0, Real.sqrt 2 / 2, Real.sqrt 2 / 2⟩⟩) =
      ⟨0, 1, 0, 0, -1, 0, 0, 0, 0, 0, 1, 0, 1, 0, 0, 1⟩ := by
    rw [hA, hB]
    apply Matrix4.ext <;> norm_num [applyTransform, Matrix4.multiplyMatrices]
  rw [hM]
  have hd : (⟨0, 1, 0, 0, -1, 0, 0, 0, 0, 0, 1, 0, 1, 0, 0, 1⟩ : Matrix4).decompose =
      (⟨1, 0, 0⟩, ⟨0, 0, Real.sqrt 2 / 2, Real.sqrt 2 / 2⟩, ⟨1, 1, 1⟩) := by
    simp only [Matrix4.decompose, vec3Length, Matrix4.determinant, setFromRotationMatrix]
    norm_num
    all_goals field_simp
    constructor
    · linear_combination (-2 : ℝ) * h2
    · ring
  simp only [matrixToPose, hd]

/-- Squared euclidean norm of a quaternion. -/
noncomputable def qnorm2 (q : Quat) : ℝ := q.x ^ 2 + q.y ^ 2 + q.z ^ 2 + q.w ^ 2

/-- Componentwise negation; `q` and `q.neg` represent the same rotation. -/
noncomputable def Quat.neg (q : Quat) : Quat := ⟨-q.x, -q.y, -q.z, -q.w⟩

theorem qnorm2_of_magnitude_one (q : Quat) (h : quaternionMagnitude q = 1) :
    qnorm2 q = 1 := by
  have h1 : q.x * q.x + q.y * q.y + q.z * q.z + q.w * q.w = 1 :=
    Real.sqrt_eq_one.mp h
  unfold qnorm2
  linear_combination h1

/-- Normal form of the matrix composed from a unit-scale pose: the standard
quaternion rotation block plus the translation column. -/
noncomputable def rotMat (q : Quat) (t : Vec3) : Matrix4 :=
  ⟨1 - 2 * (q.y ^ 2 + q.z ^ 2), 2 * (q.x * q.y + q.w * q.z),
     2 * (q.x * q.z - q.w * q.y), 0,
   2 * (q.x * q.y - q.w * q.z), 1 - 2 * (q.x ^ 2 + q.z ^ 2),
     2 * (q.y * q.z + q.w * q.x), 0,
   2 * (q.x * q.z + q.w * q.y), 2 * (q.y * q.z - q.w * q.x),
     1 - 2 * (q.x ^ 2 + q.y ^ 2), 0,
   t.x, t.y, t.z, 1⟩

theorem createTransformMatrix_eq (P : Pose) :
    createTransformMatrix P = rotMat P.quaternion P.position := by
  apply Matrix4.ext <;>
    (simp only [createTransformMatrix, Matrix4.compose, rotMat]
     try ring)

theorem makeRotationFromQuaternion_eq (q : Quat) :
    makeRotationFromQuaternion q = rotMat q ⟨0, 0, 0⟩ := by
  apply Matrix4.ext <;>
    (simp only [makeRotationFromQuaternion, Matrix4.compose, rotMat]
     try ring)

theorem rotMat_col1 (q : Quat) (t : Vec3) (hq : qnorm2 q = 1) :
    (rotMat q t).e0 * (rotMat q t).e0 + (rotMat q t).e1 * (rotMat q t).e1 +
      (rotMat q t).e2 * (rotMat q t).e2 = 1 := by
  simp only [rotMat]
  unfold qnorm2 at hq
  linear_combination (4 * q.y ^ 2 + 4 * q.z ^ 2) * hq

theorem rotMat_col2 (q : Quat) (t : Vec3) (hq : qnorm2 q = 1) :
    (rotMat q t).e4 * (rotMat q t).e4 + (rotMat q t).e5 * (rotMat q t).e5 +
      (rotMat q t).e6 * (rotMat q t).e6 = 1 := by
  simp only [rotMat]
  unfold qnorm2 at hq
  linear_combination (4 * q.x ^ 2 + 4 * q.z ^ 2) * hq

theorem rotMat_col3 (q : Quat) (t : Vec3) (hq : qnorm2 q = 1) :
    (rotMat q t).e8 * (rotMat q t).e8 + (rotMat q t).e9 * (rotMat q t).e9 +
      (rotMat q t).e10 * (rotMat q t).e10 = 1 := by
  simp only [rotMat]
  unfold qnorm2 at hq
  linear_combination (4 * q.x ^ 2 + 4 * q.y ^ 2) * hq

theorem rotMat_det (q : Quat) (t : Vec3) (hq : qnorm2 q = 1) :
    (rotMat q t).determinant = 1 := by
  simp only [rotMat, Matrix4.determinant]
  unfold qnorm2 at hq
  linear_combination (4 * (q.x ^ 2 + q.y ^ 2 + q.z ^ 2)) * hq

/-- Decomposition of a matrix whose rotation block has unit columns and
nonnegative determinant: the scales are 1 and the quaternion is read off the
matrix itself. -/
theorem matrixToPose_eq (m : Matrix4)
    (hsx : m.e0 * m.e0 + m.e1 * m.e1 + m.e2 * m.e2 = 1)
    (hsy : m.e4 * m.e4 + m.e5 * m.e5 + m.e6 * m.e6 = 1)
    (hsz : m.e8 * m.e8 + m.e9 * m.e9 + m.e10 * m.e10 = 1)
    (hdet : ¬ m.determinant < 0) :
    matrixToPose m = ⟨⟨m.e12, m.e13, m.e14⟩, setFromRotationMatrix m⟩ := by
  simp only [matrixToPose, Matrix4.decompose, vec3Length]
  rw [if_neg hdet, hsx, hsy, hsz, Real.sqrt_one]
  have hm1 : (⟨m.e0 * (1 / 1), m.e1 * (1 / 1), m.e2 * (1 / 1), m.e3,
      m.e4 * (1 / 1), m.e5 * (1 / 1), m.e6 * (1 / 1), m.e7,
      m.e8 * (1 / 1), m.e9 * (1 / 1), m.e10 * (1 / 1), m.e11,
      m.e12, m.e13, m.e14, m.e15⟩ : Matrix4) = m := by
    apply Matrix4.ext <;> norm_num
  rw [hm1]

/-- Shepperd extraction applied to the rotation matrix of a unit quaternion
recovers the quaternion up to global sign, whichever branch is taken. -/
theorem setFromRotationMatrix_rotMat (q : Quat) (t : Vec3) (hq : qnorm2 q = 1) :
    setFromRotationMatrix (rotMat q t) = q ∨
      setFromRotationMatrix (rotMat q t) = q.neg := by
  unfold qnorm2 at hq
  simp only [setFromRotationMatrix, rotMat]
  split_ifs with h1 h2 h3
  · -- trace > 0: the quaternion is recovered with the sign of w
    have hw : q.w ≠ 0 := by
      intro h0
      nlinarith [h1, hq, sq_nonneg q.x, sq_nonneg q.y, sq_nonneg q.z]
    have hsq4 : 1 - 2 * (q.y ^ 2 + q.z ^ 2) + (1 - 2 * (q.x ^ 2 + q.z ^ 2)) +
        (1 - 2 * (q.x ^ 2 + q.y ^ 2)) + 1 = (2 * |q.w|) ^ 2 := by
      rw [mul_pow, sq_abs]
      linear_combination (-4 : ℝ) * hq
    rw [hsq4, Real.sqrt_sq (by positivity)]
    rcases abs_cases q.w with ⟨ha, hs⟩ | ⟨ha, hs⟩
    · left
      apply Quat.ext <;>
        (rw [ha]
         field_simp
         ring)
    · right
      apply Quat.ext <;>
        (simp only [Quat.neg]
         rw [ha]
         field_simp
         ring)
  · -- m11 dominant branch: recovered with the sign of x
    obtain ⟨h21, h22⟩ := h2
    have hyx : q.y ^ 2 < q.x ^ 2 := by nlinarith [h21]
    have hzx : q.z ^ 2 < q.x ^ 2 := by nlinarith [h22]
    have hx : q.x ≠ 0 := by
      intro h0
      nlinarith [hyx, sq_nonneg q.y]
    have hsq4 : 1 + (1 - 2 * (q.y ^ 2 + q.z ^ 2)) - (1 - 2 * (q.x ^ 2 + q.z ^ 2)) -
        (1 - 2 * (q.x ^ 2 + q.y ^ 2)) = (2 * |q.x|) ^ 2 := by
      rw [mul_pow, sq_abs]
      ring
    rw [hsq4, Real.sqrt_sq (by positivity)]
    rcases abs_cases q.x with ⟨ha, hs⟩ | ⟨ha, hs⟩
    · left
      apply Quat.ext <;>
        (rw [ha]
         field_simp
         ring)
    · right
      apply Quat.ext <;>
        (simp only [Quat.neg]
         rw [ha]
         field_simp
         ring)
  · -- m22 dominant branch: recovered with the sign of y
    have hzy : q.z ^ 2 < q.y ^ 2 := by nlinarith [h3]
    have hy : q.y ≠ 0 := by
      intro h0
      nlinarith [hzy, sq_nonneg q.z]
    have hsq4 : 1 + (1 - 2 * (q.x ^ 2 + q.z ^ 2)) - (1 - 2 * (q.y ^ 2 + q.z ^ 2)) -
        (1 - 2 * (q.x ^ 2 + q.y ^ 2)) = (2 * |q.y|) ^ 2 := by
      rw [mul_pow, sq_abs]
      ring
    rw [hsq4, Real.sqrt_sq (by positivity)]
    rcases abs_cases q.y with ⟨ha, hs⟩ | ⟨ha, hs⟩
    · left
      apply Quat.ext <;>
        (rw [ha]
         field_simp
         ring)
    · right
      apply Quat.ext <;>
        (simp only [Quat.neg]
         rw [ha]
         field_simp
         ring)
  · -- m33 dominant branch: recovered with the sign of z
    push_neg at h2 h3
    have hyz : q.y ^ 2 ≤ q.z ^ 2 := by nlinarith [h3]
    have hz : q.z ≠ 0 := by
      intro h0
      have hy0 : q.y = 0 := by nlinarith [hyz, sq_nonneg q.y]
      have h11 : 1 - 2 * (q.y ^ 2 + q.z ^ 2) > 1 - 2 * (q.x ^ 2 + q.z ^ 2) →
          1 - 2 * (q.y ^ 2 + q.z ^ 2) ≤ 1 - 2 * (q.x ^ 2 + q.y ^ 2) := h2
      have htr : ¬ (1 - 2 * (q.y ^ 2 + q.z ^ 2) + (1 - 2 * (q.x ^ 2 + q.z ^ 2)) +
          (1 - 2 * (q.x ^ 2 + q.y ^ 2)) > 0) := h1
      have hx34 : q.x ^ 2 ≥ 3 / 4 := by nlinarith [htr]
      have := h11 (by nlinarith [hx34])
      nlinarith [this, hx34]
    have hsq4 : 1 + (1 - 2 * (q.x ^ 2 + q.y ^ 2)) - (1 - 2 * (q.y ^ 2 + q.z ^ 2)) -
        (1 - 2 * (q.x ^ 2 + q.z ^ 2)) = (2 * |q.z|) ^ 2 := by
      rw [mul_pow, sq_abs]
      ring
    rw [hsq4, Real.sqrt_sq (by positivity)]
    rcases abs_cases q.z with ⟨ha, hs⟩ | ⟨ha, hs⟩
    · left
      apply Quat.ext <;>
        (rw [ha]
         field_simp
         ring)
    · right
      apply Quat.ext <;>
        (simp only [Quat.neg]
         rw [ha]
         field_simp
         ring)

/-- C1: for a pose with unit quaternion, converting to a matrix and back
returns the position exactly and the quaternion up to a global sign flip. -/
theorem matrixToPose_createTransformMatrix_roundtrip (P : Pose)
    (h : quaternionMagnitude P.quaternion = 1) :
    (matrixToPose (createTransformMatrix P)).position = P.position ∧
      ((matrixToPose (createTransformMatrix P)).quaternion = P.quaternion ∨
        (matrixToPose (createTransformMatrix P)).quaternion = P.quaternion.neg) := by
  have hq : qnorm2 P.quaternion = 1 := qnorm2_of_magnitude_one _ h
  rw [createTransformMatrix_eq P]
  rw [matrixToPose_eq _ (rotMat_col1 _ _ hq) (rotMat_col2 _ _ hq) (rotMat_col3 _ _ hq)
    (by rw [rotMat_det _ _ hq]; norm_num)]
  constructor
  · simp only [rotMat]
  · exact setFromRotationMatrix_rotMat P.quaternion P.position hq

/-- C1 witness: the identity pose has a unit quaternion and round-trips. -/
theorem matrixToPose_createTransformMatrix_roundtrip_witness :
    (matrixToPose (createTransformMatrix ⟨⟨0, 0, 0⟩, ⟨0, 0, 0, 1⟩⟩)).position =
        (⟨0, 0, 0⟩ : Vec3) ∧
      ((matrixToPose (createTransformMatrix ⟨⟨0, 0, 0⟩, ⟨0, 0, 0, 1⟩⟩)).quaternion =
          (⟨0, 0, 0, 1⟩ : Quat) ∨
        (matrixToPose (createTransformMatrix ⟨⟨0, 0, 0⟩, ⟨0, 0, 0, 1⟩⟩)).quaternion =
          (⟨0, 0, 0, 1⟩ : Quat).neg) :=
  matrixToPose_createTransformMatrix_roundtrip ⟨⟨0, 0, 0⟩, ⟨0, 0, 0, 1⟩⟩
    (by unfold quaternionMagnitude; norm_num)

/-- three.js `Quaternion.multiplyQuaternions(a, b)` (Hamilton product). -/
noncomputable def qmul (a b : Quat) : Quat :=
  ⟨a.x * b.w + a.w * b.x + a.y * b.z - a.z * b.y,
   a.y * b.w + a.w * b.y + a.z * b.x - a.x * b.z,
   a.z * b.w + a.w * b.z + a.x * b.y - a.y * b.x,
   a.w * b.w - a.x * b.x - a.y * b.y - a.z * b.z⟩

/-- A 3x3 real matrix, row-major fields. -/
@[ext]
structure Mat3 where
  a11 : ℝ
  a12 : ℝ
  a13 : ℝ
  a21 : ℝ
  a22 : ℝ
  a23 : ℝ
  a31 : ℝ
  a32 : ℝ
  a33 : ℝ

/-- Matrix product on `Mat3`. -/
noncomputable def Mat3.mul (A B : Mat3) : Mat3 :=
  ⟨A.a11 * B.a11 + A.a12 * B.a21 + A.a13 * B.a31,
   A.a11 * B.a12 + A.a12 * B.a22 + A.a13 * B.a32,
   A.a11 * B.a13 + A.a12 * B.a23 + A.a13 * B.a33,
   A.a21 * B.a11 + A.a22 * B.a21 + A.a23 * B.a31,
   A.a21 * B.a12 + A.a22 * B.a22 + A.a23 * B.a32,
   A.a21 * B.a13 + A.a22 * B.a23 + A.a23 * B.a33,
   A.a31 * B.a11 + A.a32 * B.a21 + A.a33 * B.a31,
   A.a31 * B.a12 + A.a32 * B.a22 + A.a33 * B.a32,
   A.a31 * B.a13 + A.a32 * B.a23 + A.a33 * B.a33⟩

/-- The homogeneous rotation matrix of a quaternion: the matrix of
`v ↦ q v q*`, which for unit `q` agrees with the rotation block of
`Matrix4.compose`. -/
noncomputable def Mh (q : Quat) : Mat3 :=
  ⟨q.w ^ 2 + q.x ^ 2 - q.y ^ 2 - q.z ^ 2, 2 * (q.x * q.y - q.w * q.z),
     2 * (q.x * q.z + q.w * q.y),
   2 * (q.x * q.y + q.w * q.z), q.w ^ 2 - q.x ^ 2 + q.y ^ 2 - q.z ^ 2,
     2 * (q.y * q.z - q.w * q.x),
   2 * (q.x * q.z - q.w * q.y), 2 * (q.y * q.z + q.w * q.x),
     q.w ^ 2 - q.x ^ 2 - q.y ^ 2 + q.z ^ 2⟩

theorem Mh_qmul (a b : Quat) : Mh (qmul a b) = (Mh a).mul (Mh b) := by
  apply Mat3.ext <;>
    (simp only [Mh, qmul, Mat3.mul]
     ring)

theorem qnorm2_qmul (a b : Quat) : qnorm2 (qmul a b) = qnorm2 a * qnorm2 b := by
  simp only [qnorm2, qmul]
  ring

/-- Rotation block of a `Matrix4`, row-major. -/
noncomputable def rot3 (m : Matrix4) : Mat3 :=
  ⟨m.e0, m.e4, m.e8, m.e1, m.e5, m.e9, m.e2, m.e6, m.e10⟩

theorem rot3_rotMat (q : Quat) (t : Vec3) (hq : qnorm2 q = 1) :
    rot3 (rotMat q t) = Mh q := by
  unfold qnorm2 at hq
  apply Mat3.ext <;> simp only [rot3, rotMat, Mh]
  all_goals first
    | ring1
    | linear_combination -hq

/-- Unit quaternion of a rotation by `a` about the X axis. -/
noncomputable def qX (a : ℝ) : Quat := ⟨Real.sin (a / 2), 0, 0, Real.cos (a / 2)⟩

/-- Unit quaternion of a rotation by `a` about the Y axis. -/
noncomputable def qY (a : ℝ) : Quat := ⟨0, Real.sin (a / 2), 0, Real.cos (a / 2)⟩

/-- Unit quaternion of a rotation by `a` about the Z axis. -/
noncomputable def qZ (a : ℝ) : Quat := ⟨0, 0, Real.sin (a / 2), Real.cos (a / 2)⟩

/-- Rotation matrix about the X axis. -/
noncomputable def RXm (a : ℝ) : Mat3 :=
  ⟨1, 0, 0, 0, Real.cos a, -Real.sin a, 0, Real.sin a, Real.cos a⟩

/-- Rotation matrix about the Y axis. -/
noncomputable def RYm (a : ℝ) : Mat3 :=
  ⟨Real.cos a, 0, Real.sin a, 0, 1, 0, -Real.sin a, 0, Real.cos a⟩

/-- Rotation matrix about the Z axis. -/
noncomputable def RZm (a : ℝ) : Mat3 :=
  ⟨Real.cos a, -Real.sin a, 0, Real.sin a, Real.cos a, 0, 0, 0, 1⟩

theorem qnorm2_qX (a : ℝ) : qnorm2 (qX a) = 1 := by
  simp only [qnorm2, qX]
  linear_combination Real.sin_sq_add_cos_sq (a / 2)

theorem qnorm2_qY (a : ℝ) : qnorm2 (qY a) = 1 := by
  simp only [qnorm2, qY]
  linear_combination Real.sin_sq_add_cos_sq (a / 2)

theorem qnorm2_qZ (a : ℝ) : qnorm2 (qZ a) = 1 := by
  simp only [qnorm2, qZ]
  linear_combination Real.sin_sq_add_cos_sq (a / 2)

theorem Mh_qX (a : ℝ) : Mh (qX a) = RXm a := by
  have ha : 2 * (a / 2) = a := by ring
  have hp : Real.sin (a / 2) ^ 2 + Real.cos (a / 2) ^ 2 = 1 :=
    Real.sin_sq_add_cos_sq (a / 2)
  have hc : Real.cos a = 2 * Real.cos (a / 2) ^ 2 - 1 := by
    nth_rewrite 1 [← ha]
    rw [Real.cos_two_mul]
  have hs : Real.sin a = 2 * Real.sin (a / 2) * Real.cos (a / 2) := by
    nth_rewrite 1 [← ha]
    rw [Real.sin_two_mul]
  apply Mat3.ext <;> simp only [Mh, qX, RXm]
  all_goals first
    | ring1
    | linear_combination hp
    | linear_combination -hc - hp
    | linear_combination hs
    | linear_combination -hs

theorem Mh_qY (a : ℝ) : Mh (qY a) = RYm a := by
  have ha : 2 * (a / 2) = a := by ring
  have hp : Real.sin (a / 2) ^ 2 + Real.cos (a / 2) ^ 2 = 1 :=
    Real.sin_sq_add_cos_sq (a / 2)
  have hc : Real.cos a = 2 * Real.cos (a / 2) ^ 2 - 1 := by
    nth_rewrite 1 [← ha]
    rw [Real.cos_two_mul]
  have hs : Real.sin a = 2 * Real.sin (a / 2) * Real.cos (a / 2) := by
    nth_rewrite 1 [← ha]
    rw [Real.sin_two_mul]
  apply Mat3.ext <;> simp only [Mh, qY, RYm]
  all_goals first
    | ring1
    | linear_combination hp
    | linear_combination -hc - hp
    | linear_combination hs
    | linear_combination -hs

theorem Mh_qZ (a : ℝ) : Mh (qZ a) = RZm a := by
  have ha : 2 * (a / 2) = a := by ring
  have hp : Real.sin (a / 2) ^ 2 + Real.cos (a / 2) ^ 2 = 1 :=
    Real.sin_sq_add_cos_sq (a / 2)
  have hc : Real.cos a = 2 * Real.cos (a / 2) ^ 2 - 1 := by
    nth_rewrite 1 [← ha]
    rw [Real.cos_two_mul]
  have hs : Real.sin a = 2 * Real.sin (a / 2) * Real.cos (a / 2) := by
    nth_rewrite 1 [← ha]
    rw [Real.sin_two_mul]
  apply Mat3.ext <;> simp only [Mh, qZ, RZm]
  all_goals first
    | ring1
    | linear_combination hp
    | linear_combination -hc - hp
    | linear_combination hs
    | linear_combination -hs

theorem eulerToQuaternion_XYZ (x y z : ℝ) :
    eulerToQuaternion x y z .XYZ = qmul (qmul (qX x) (qY y)) (qZ z) := by
  apply Quat.ext <;>
    (simp only [eulerToQuaternion, qmul, qX, qY, qZ]
     ring)

theorem eulerToQuaternion_YXZ (x y z : ℝ) :
    eulerToQuaternion x y z .YXZ = qmul (qmul (qY y) (qX x)) (qZ z) := by
  apply Quat.ext <;>
    (simp only [eulerToQuaternion, qmul, qX, qY, qZ]
     ring)

theorem eulerToQuaternion_ZXY (x y z : ℝ) :
    eulerToQuaternion x y z .ZXY = qmul (qmul (qZ z) (qX x)) (qY y) := by
  apply Quat.ext <;>
    (simp only [eulerToQuaternion, qmul, qX, qY, qZ]
     ring)

theorem eulerToQuaternion_ZYX (x y z : ℝ) :
    eulerToQuaternion x y z .ZYX = qmul (qmul (qZ z) (qY y)) (qX x) := by
  apply Quat.ext <;>
    (simp only [eulerToQuaternion, qmul, qX, qY, qZ]
     ring)

theorem eulerToQuaternion_YZX (x y z : ℝ) :
    eulerToQuaternion x y z .YZX = qmul (qmul (qY y) (qZ z)) (qX x) := by
  apply Quat.ext <;>
    (simp only [eulerToQuaternion, qmul, qX, qY, qZ]
     ring)

theorem eulerToQuaternion_XZY (x y z : ℝ) :
    eulerToQuaternion x y z .XZY = qmul (qmul (qX x) (qZ z)) (qY y) := by
  apply Quat.ext <;>
    (simp only [eulerToQuaternion, qmul, qX, qY, qZ]
     ring)

theorem clamp_eq_self (u : ℝ) (h1 : -1 ≤ u) (h2 : u ≤ 1) : clamp u (-1) 1 = u := by
  unfold clamp
  rw [min_eq_right h2, max_eq_right h1]

theorem sin_cos_arcsin_clamp (u : ℝ) (h : |u| < 1) :
    Real.sin (Real.arcsin (clamp u (-1) 1)) = u ∧
      Real.cos (Real.arcsin (clamp u (-1) 1)) = Real.sqrt (1 - u ^ 2) := by
  obtain ⟨hl, hr⟩ := abs_lt.mp h
  rw [clamp_eq_self u (le_of_lt hl) (le_of_lt hr)]
  exact ⟨Real.sin_arcsin (le_of_lt hl) (le_of_lt hr), Real.cos_arcsin u⟩

theorem cos_sin_atan2 (yv xv : ℝ) (h : 0 < xv ^ 2 + yv ^ 2) :
    Real.cos (atan2 yv xv) = xv / Real.sqrt (xv ^ 2 + yv ^ 2) ∧
      Real.sin (atan2 yv xv) = yv / Real.sqrt (xv ^ 2 + yv ^ 2) := by
  have hz : (⟨xv, yv⟩ : ℂ) ≠ 0 := by
    intro h0
    have hre := congrArg Complex.re h0
    have him := congrArg Complex.im h0
    simp only [Complex.zero_re, Complex.zero_im] at hre him
    nlinarith [hre, him]
  have habs : Complex.abs ⟨xv, yv⟩ = Real.sqrt (xv ^ 2 + yv ^ 2) := by
    rw [Complex.abs_apply, Complex.normSq_mk]
    congr 1
    ring
  constructor
  · rw [atan2, Complex.cos_arg hz, habs]
  · rw [atan2, Complex.sin_arg, habs]

theorem sin_cos_arcsin_neg_clamp (u : ℝ) (h : |u| < 1) :
    Real.sin (Real.arcsin (-clamp u (-1) 1)) = -u ∧
      Real.cos (Real.arcsin (-clamp u (-1) 1)) = Real.sqrt (1 - u ^ 2) := by
  obtain ⟨hl, hr⟩ := abs_lt.mp h
  rw [clamp_eq_self u (le_of_lt hl) (le_of_lt hr)]
  constructor
  · exact Real.sin_arcsin (by linarith) (by linarith)
  · rw [Real.cos_arcsin]
    congr 1
    ring

theorem sq_eq_cases (a b : ℝ) (h : a ^ 2 = b ^ 2) : a = b ∨ a = -b := by
  have h0 : (a - b) * (a + b) = 0 := by linear_combination h
  rcases mul_eq_zero.mp h0 with h1 | h1
  · left
    linarith
  · right
    linarith

/-- Two unit quaternions with the same rotation matrix agree up to a global
sign flip. -/
theorem eq_or_neg_of_Mh_eq (p q : Quat) (hp : qnorm2 p = 1) (hq : qnorm2 q = 1)
    (h : Mh p = Mh q) : p = q ∨ p = q.neg := by
  unfold qnorm2 at hp hq
  have h11 := congrArg Mat3.a11 h
  have h12 := congrArg Mat3.a12 h
  have h13 := congrArg Mat3.a13 h
  have h21 := congrArg Mat3.a21 h
  have h22 := congrArg Mat3.a22 h
  have h23 := congrArg Mat3.a23 h
  have h31 := congrArg Mat3.a31 h
  have h32 := congrArg Mat3.a32 h
  have h33 := congrArg Mat3.a33 h
  simp only [Mh] at h11 h12 h13 h21 h22 h23 h31 h32 h33
  have hxx : p.x ^ 2 = q.x ^ 2 := by linear_combination (hp - hq + h11 - h22 - h33) / 4
  have hyy : p.y ^ 2 = q.y ^ 2 := by linear_combination (hp - hq - h11 + h22 - h33) / 4
  have hzz : p.z ^ 2 = q.z ^ 2 := by linear_combination (hp - hq - h11 - h22 + h33) / 4
  have hww : p.w ^ 2 = q.w ^ 2 := by linear_combination (hp - hq + h11 + h22 + h33) / 4
  have hxy : p.x * p.y = q.x * q.y := by linear_combination (h12 + h21) / 4
  have hxz : p.x * p.z = q.x * q.z := by linear_combination (h13 + h31) / 4
  have hyz : p.y * p.z = q.y * q.z := by linear_combination (h23 + h32) / 4
  have hwx : p.w * p.x = q.w * q.x := by linear_combination (h32 - h23) / 4
  have hwy : p.w * p.y = q.w * q.y := by linear_combination (h13 - h31) / 4
  have hwz : p.w * p.z = q.w * q.z := by linear_combination (h21 - h12) / 4
  rcases eq_or_ne p.x 0 with hx0 | hx0
  · have hqx2 : q.x ^ 2 = 0 := by rw [← hxx, hx0]; ring
    have hqx0 : q.x = 0 := by
      exact sq_eq_zero_iff.mp hqx2
    rcases eq_or_ne p.y 0 with hy0 | hy0
    · have hqy2 : q.y ^ 2 = 0 := by rw [← hyy, hy0]; ring
      have hqy0 : q.y = 0 := by
        exact sq_eq_zero_iff.mp hqy2
      rcases eq_or_ne p.z 0 with hz0 | hz0
      · have hqz2 : q.z ^ 2 = 0 := by rw [← hzz, hz0]; ring
        have hqz0 : q.z = 0 := by
          exact sq_eq_zero_iff.mp hqz2
        rcases sq_eq_cases _ _ hww with hsw | hsw
        · left
          apply Quat.ext
          · rw [hx0, hqx0]
          · rw [hy0, hqy0]
          · rw [hz0, hqz0]
          · exact hsw
        · right
          apply Quat.ext <;> simp only [Quat.neg]
          · rw [hx0, hqx0]
            norm_num
          · rw [hy0, hqy0]
            norm_num
          · rw [hz0, hqz0]
            norm_num
          · exact hsw
      · rcases sq_eq_cases _ _ hzz with hsz | hsz
        · have hqz : q.z ≠ 0 := by rw [← hsz]; exact hz0
          left
          apply Quat.ext
          · rw [hx0, hqx0]
          · rw [hy0, hqy0]
          · exact hsz
          · refine mul_right_cancel₀ hqz ?_
            rw [hsz] at hwz
            exact hwz
        · have hqz : q.z ≠ 0 := by
            intro h0
            apply hz0
            rw [h0] at hsz
            simpa using hsz
          right
          apply Quat.ext <;> simp only [Quat.neg]
          · rw [hx0, hqx0]
            norm_num
          · rw [hy0, hqy0]
            norm_num
          · exact hsz
          · refine mul_right_cancel₀ hqz ?_
            linear_combination -hwz + p.w * hsz
    · rcases sq_eq_cases _ _ hyy with hsy | hsy
      · have hqy : q.y ≠ 0 := by rw [← hsy]; exact hy0
        left
        apply Quat.ext
        · rw [hx0, hqx0]
        · exact hsy
        · refine mul_left_cancel₀ hqy ?_
          rw [hsy] at hyz
          exact hyz
        · refine mul_right_cancel₀ hqy ?_
          rw [hsy] at hwy
          exact hwy
      · have hqy : q.y ≠ 0 := by
          intro h0
          apply hy0
          rw [h0] at hsy
          simpa using hsy
        right
        apply Quat.ext <;> simp only [Quat.neg]
        · rw [hx0, hqx0]
          norm_num
        · exact hsy
        · refine mul_left_cancel₀ hqy ?_
          linear_combination -hyz + p.z * hsy
        · refine mul_right_cancel₀ hqy ?_
          linear_combination -hwy + p.w * hsy
  · rcases sq_eq_cases _ _ hxx with hsx | hsx
    · have hqx : q.x ≠ 0 := by rw [← hsx]; exact hx0
      left
      apply Quat.ext
      · exact hsx
      · refine mul_left_cancel₀ hqx ?_
        rw [hsx] at hxy
        exact hxy
      · refine mul_left_cancel₀ hqx ?_
        rw [hsx] at hxz
        exact hxz
      · refine mul_right_cancel₀ hqx ?_
        rw [hsx] at hwx
        exact hwx
    · have hqx : q.x ≠ 0 := by
        intro h0
        apply hx0
        rw [h0] at hsx
        simpa using hsx
      right
      apply Quat.ext <;> simp only [Quat.neg]
      · exact hsx
      · refine mul_left_cancel₀ hqx ?_
        linear_combination -hxy + p.y * hsx
      · refine mul_left_cancel₀ hqx ?_
        linear_combination -hxz + p.z * hsx
      · refine mul_right_cancel₀ hqx ?_
        linear_combination -hwx + p.w * hsx

theorem roundtrip_XYZ (q : Quat) (hq0 : qnorm2 q = 1)
    (hlock : |2 * (q.x * q.z + q.w * q.y)| < 0.9999999) :
    eulerToQuaternion (quaternionToEuler q .XYZ).x (quaternionToEuler q .XYZ).y
        (quaternionToEuler q .XYZ).z .XYZ = q ∨
      eulerToQuaternion (quaternionToEuler q .XYZ).x (quaternionToEuler q .XYZ).y
        (quaternionToEuler q .XYZ).z .XYZ = q.neg := by
  have hq : q.x ^ 2 + q.y ^ 2 + q.z ^ 2 + q.w ^ 2 = 1 := hq0
  have ht1 : |2 * (q.x * q.z + q.w * q.y)| < 1 := lt_trans hlock (by norm_num)
  have ht2 : 0 < 1 - (2 * (q.x * q.z + q.w * q.y)) ^ 2 := by
    nlinarith [sq_abs (2 * (q.x * q.z + q.w * q.y)),
      abs_nonneg (2 * (q.x * q.z + q.w * q.y)), ht1]
  have hsq : Real.sqrt (1 - (2 * (q.x * q.z + q.w * q.y)) ^ 2) ^ 2 =
      1 - (2 * (q.x * q.z + q.w * q.y)) ^ 2 := Real.sq_sqrt (le_of_lt ht2)
  have hRne : Real.sqrt (1 - (2 * (q.x * q.z + q.w * q.y)) ^ 2) ≠ 0 :=
    ne_of_gt (Real.sqrt_pos.mpr ht2)
  have hE : quaternionToEuler q .XYZ =
      ⟨atan2 (-(2 * (q.y * q.z - q.w * q.x))) (1 - 2 * (q.x ^ 2 + q.y ^ 2)),
       Real.arcsin (clamp (2 * (q.x * q.z + q.w * q.y)) (-1) 1),
       atan2 (-(2 * (q.x * q.y - q.w * q.z))) (1 - 2 * (q.y ^ 2 + q.z ^ 2))⟩ := by
    unfold quaternionToEuler
    rw [makeRotationFromQuaternion_eq]
    simp only [eulerFromRotationMatrix, rotMat]
    rw [if_pos hlock]
  have hEx : (quaternionToEuler q .XYZ).x =
      atan2 (-(2 * (q.y * q.z - q.w * q.x))) (1 - 2 * (q.x ^ 2 + q.y ^ 2)) := by rw [hE]
  have hEy : (quaternionToEuler q .XYZ).y =
      Real.arcsin (clamp (2 * (q.x * q.z + q.w * q.y)) (-1) 1) := by rw [hE]
  have hEz : (quaternionToEuler q .XYZ).z =
      atan2 (-(2 * (q.x * q.y - q.w * q.z))) (1 - 2 * (q.y ^ 2 + q.z ^ 2)) := by rw [hE]
  obtain ⟨hsb, hcb⟩ := sin_cos_arcsin_clamp (2 * (q.x * q.z + q.w * q.y)) ht1
  have hden_a : (1 - 2 * (q.x ^ 2 + q.y ^ 2)) ^ 2 + (-(2 * (q.y * q.z - q.w * q.x))) ^ 2 =
      1 - (2 * (q.x * q.z + q.w * q.y)) ^ 2 := by
    linear_combination (4 * q.x ^ 2 + 4 * q.y ^ 2) * hq
  have hpos_a : 0 < (1 - 2 * (q.x ^ 2 + q.y ^ 2)) ^ 2 +
      (-(2 * (q.y * q.z - q.w * q.x))) ^ 2 := by
    rw [hden_a]
    exact ht2
  obtain ⟨hca, hsa⟩ := cos_sin_atan2 (-(2 * (q.y * q.z - q.w * q.x)))
    (1 - 2 * (q.x ^ 2 + q.y ^ 2)) hpos_a
  rw [hden_a] at hca hsa
  have hden_c : (1 - 2 * (q.y ^ 2 + q.z ^ 2)) ^ 2 + (-(2 * (q.x * q.y - q.w * q.z))) ^ 2 =
      1 - (2 * (q.x * q.z + q.w * q.y)) ^ 2 := by
    linear_combination (4 * q.y ^ 2 + 4 * q.z ^ 2) * hq
  have hpos_c : 0 < (1 - 2 * (q.y ^ 2 + q.z ^ 2)) ^ 2 +
      (-(2 * (q.x * q.y - q.w * q.z))) ^ 2 := by
    rw [hden_c]
    exact ht2
  obtain ⟨hcc, hsc⟩ := cos_sin_atan2 (-(2 * (q.x * q.y - q.w * q.z)))
    (1 - 2 * (q.y ^ 2 + q.z ^ 2)) hpos_c
  rw [hden_c] at hcc hsc
  rw [hEx, hEy, hEz, eulerToQuaternion_XYZ]
  refine eq_or_neg_of_Mh_eq _ q ?_ hq0 ?_
  · rw [qnorm2_qmul, qnorm2_qmul, qnorm2_qX, qnorm2_qY, qnorm2_qZ]
    norm_num
  · rw [Mh_qmul, Mh_qmul, Mh_qX, Mh_qY, Mh_qZ, ← rot3_rotMat q ⟨0, 0, 0⟩ hq0]
    apply Mat3.ext <;>
      simp only [Mat3.mul, RXm, RYm, RZm, rot3, rotMat, mul_zero, zero_mul, add_zero,
        zero_add, mul_one, one_mul, neg_mul, mul_neg, neg_neg, neg_zero]
    case a11 =>
      simp only [hcb, hcc]
      field_simp
    case a12 =>
      simp only [hcb, hsc]
      field_simp
    case a13 =>
      simp only [hsb]
    case a21 =>
      simp only [hca, hsa, hsb, hcb, hcc, hsc]
      trans (-((1 - 2 * (q.x ^ 2 + q.y ^ 2)) * (2 * (q.x * q.y - q.w * q.z))) -
          2 * (q.x * q.z + q.w * q.y) * (2 * (q.y * q.z - q.w * q.x)) *
            (1 - 2 * (q.y ^ 2 + q.z ^ 2))) /
        Real.sqrt (1 - (2 * (q.x * q.z + q.w * q.y)) ^ 2) ^ 2
      · ring1
      · have key : -((1 - 2 * (q.x ^ 2 + q.y ^ 2)) * (2 * (q.x * q.y - q.w * q.z))) -
            2 * (q.x * q.z + q.w * q.y) * (2 * (q.y * q.z - q.w * q.x)) *
              (1 - 2 * (q.y ^ 2 + q.z ^ 2)) =
            2 * (q.x * q.y + q.w * q.z) * (1 - (2 * (q.x * q.z + q.w * q.y)) ^ 2) := by
          linear_combination (8 * q.x * q.y * q.z ^ 2 + 4 * q.x * q.y +
            8 * q.y ^ 2 * q.z * q.w) * hq
        rw [key, hsq]
        exact mul_div_cancel_right₀ _ (ne_of_gt ht2)
    case a22 =>
      simp only [hca, hsa, hsb, hcb, hcc, hsc]
      trans ((1 - 2 * (q.x ^ 2 + q.y ^ 2)) * (1 - 2 * (q.y ^ 2 + q.z ^ 2)) -
          2 * (q.x * q.z + q.w * q.y) * (2 * (q.y * q.z - q.w * q.x)) *
            (2 * (q.x * q.y - q.w * q.z))) /
        Real.sqrt (1 - (2 * (q.x * q.z + q.w * q.y)) ^ 2) ^ 2
      · ring1
      · have key : (1 - 2 * (q.x ^ 2 + q.y ^ 2)) * (1 - 2 * (q.y ^ 2 + q.z ^ 2)) -
            2 * (q.x * q.z + q.w * q.y) * (2 * (q.y * q.z - q.w * q.x)) *
              (2 * (q.x * q.y - q.w * q.z)) =
            (1 - 2 * (q.x ^ 2 + q.z ^ 2)) * (1 - (2 * (q.x * q.z + q.w * q.y)) ^ 2) := by
          linear_combination (-8 * q.x ^ 2 * q.z ^ 2 - 8 * q.x * q.y * q.z * q.w +
            4 * q.y ^ 2) * hq
        rw [key, hsq]
        exact mul_div_cancel_right₀ _ (ne_of_gt ht2)
    case a23 =>
      simp only [hsa, hcb]
      field_simp
    case a31 =>
      simp only [hca, hsa, hsb, hcb, hcc, hsc]
      trans (2 * (q.y * q.z - q.w * q.x) * (2 * (q.x * q.y - q.w * q.z)) -
          2 * (q.x * q.z + q.w * q.y) * (1 - 2 * (q.x ^ 2 + q.y ^ 2)) *
            (1 - 2 * (q.y ^ 2 + q.z ^ 2))) /
        Real.sqrt (1 - (2 * (q.x * q.z + q.w * q.y)) ^ 2) ^ 2
      · ring1
      · have key : 2 * (q.y * q.z - q.w * q.x) * (2 * (q.x * q.y - q.w * q.z)) -
            2 * (q.x * q.z + q.w * q.y) * (1 - 2 * (q.x ^ 2 + q.y ^ 2)) *
              (1 - 2 * (q.y ^ 2 + q.z ^ 2)) =
            2 * (q.x * q.z - q.w * q.y) * (1 - (2 * (q.x * q.z + q.w * q.y)) ^ 2) := by
          linear_combination (-8 * q.x * q.y ^ 2 * q.z + 4 * q.x * q.z -
            8 * q.y ^ 3 * q.w) * hq
        rw [key, hsq]
        exact mul_div_cancel_right₀ _ (ne_of_gt ht2)
    case a32 =>
      simp only [hca, hsa, hsb, hcb, hcc, hsc]
      trans (-(2 * (q.y * q.z - q.w * q.x) * (1 - 2 * (q.y ^ 2 + q.z ^ 2))) -
          2 * (q.x * q.z + q.w * q.y) * (1 - 2 * (q.x ^ 2 + q.y ^ 2)) *
            (2 * (q.x * q.y - q.w * q.z))) /
        Real.sqrt (1 - (2 * (q.x * q.z + q.w * q.y)) ^ 2) ^ 2
      · ring1
      · have key : -(2 * (q.y * q.z - q.w * q.x) * (1 - 2 * (q.y ^ 2 + q.z ^ 2))) -
            2 * (q.x * q.z + q.w * q.y) * (1 - 2 * (q.x ^ 2 + q.y ^ 2)) *
              (2 * (q.x * q.y - q.w * q.z)) =
            2 * (q.y * q.z + q.w * q.x) * (1 - (2 * (q.x * q.z + q.w * q.y)) ^ 2) := by
          linear_combination (8 * q.x ^ 2 * q.y * q.z + 8 * q.x * q.y ^ 2 * q.w +
            4 * q.y * q.z) * hq
        rw [key, hsq]
        exact mul_div_cancel_right₀ _ (ne_of_gt ht2)
    case a33 =>
      simp only [hca, hcb]
      field_simp

theorem roundtrip_YXZ (q : Quat) (hq0 : qnorm2 q = 1)
    (hlock : |2 * (q.y * q.z - q.w * q.x)| < 0.9999999) :
    eulerToQuaternion (quaternionToEuler q .YXZ).x (quaternionToEuler q .YXZ).y
        (quaternionToEuler q .YXZ).z .YXZ = q ∨
      eulerToQuaternion (quaternionToEuler q .YXZ).x (quaternionToEuler q .YXZ).y
        (quaternionToEuler q .YXZ).z .YXZ = q.neg := by
  have hq : q.x ^ 2 + q.y ^ 2 + q.z ^ 2 + q.w ^ 2 = 1 := hq0
  have ht1 : |2 * (q.y * q.z - q.w * q.x)| < 1 := lt_trans hlock (by norm_num)
  have ht2 : 0 < 1 - (2 * (q.y * q.z - q.w * q.x)) ^ 2 := by
    nlinarith [sq_abs (2 * (q.y * q.z - q.w * q.x)),
      abs_nonneg (2 * (q.y * q.z - q.w * q.x)), ht1]
  have hsq : Real.sqrt (1 - (2 * (q.y * q.z - q.w * q.x)) ^ 2) ^ 2 =
      1 - (2 * (q.y * q.z - q.w * q.x)) ^ 2 := Real.sq_sqrt (le_of_lt ht2)
  have hRne : Real.sqrt (1 - (2 * (q.y * q.z - q.w * q.x)) ^ 2) ≠ 0 :=
    ne_of_gt (Real.sqrt_pos.mpr ht2)
  have hE : quaternionToEuler q .YXZ =
      ⟨Real.arcsin (-(clamp (2 * (q.y * q.z - q.w * q.x)) (-1) 1)),
       atan2 (2 * (q.x * q.z + q.w * q.y)) (1 - 2 * (q.x ^ 2 + q.y ^ 2)),
       atan2 (2 * (q.x * q.y + q.w * q.z)) (1 - 2 * (q.x ^ 2 + q.z ^ 2))⟩ := by
    unfold quaternionToEuler
    rw [makeRotationFromQuaternion_eq]
    simp only [eulerFromRotationMatrix, rotMat]
    rw [if_pos hlock]
  have hEx : (quaternionToEuler q .YXZ).x =
      Real.arcsin (-(clamp (2 * (q.y * q.z - q.w * q.x)) (-1) 1)) := by rw [hE]
  have hEy : (quaternionToEuler q .YXZ).y =
      atan2 (2 * (q.x * q.z + q.w * q.y)) (1 - 2 * (q.x ^ 2 + q.y ^ 2)) := by rw [hE]
  have hEz : (quaternionToEuler q .YXZ).z =
      atan2 (2 * (q.x * q.y + q.w * q.z)) (1 - 2 * (q.x ^ 2 + q.z ^ 2)) := by rw [hE]
  obtain ⟨hsA, hcA⟩ := sin_cos_arcsin_neg_clamp (2 * (q.y * q.z - q.w * q.x)) ht1
  have hden_B : (1 - 2 * (q.x ^ 2 + q.y ^ 2)) ^ 2 + (2 * (q.x * q.z + q.w * q.y)) ^ 2 =
      1 - (2 * (q.y * q.z - q.w * q.x)) ^ 2 := by
    linear_combination (4 * q.x ^ 2 + 4 * q.y ^ 2) * hq
  have hpos_B : 0 < (1 - 2 * (q.x ^ 2 + q.y ^ 2)) ^ 2 + (2 * (q.x * q.z + q.w * q.y)) ^ 2 := by
    rw [hden_B]
    exact ht2
  obtain ⟨hcB, hsB⟩ := cos_sin_atan2 (2 * (q.x * q.z + q.w * q.y))
    (1 - 2 * (q.x ^ 2 + q.y ^ 2)) hpos_B
  rw [hden_B] at hcB hsB
  have hden_C : (1 - 2 * (q.x ^ 2 + q.z ^ 2)) ^ 2 + (2 * (q.x * q.y + q.w * q.z)) ^ 2 =
      1 - (2 * (q.y * q.z - q.w * q.x)) ^ 2 := by
    linear_combination (4 * q.x ^ 2 + 4 * q.z ^ 2) * hq
  have hpos_C : 0 < (1 - 2 * (q.x ^ 2 + q.z ^ 2)) ^ 2 + (2 * (q.x * q.y + q.w * q.z)) ^ 2 := by
    rw [hden_C]
    exact ht2
  obtain ⟨hcC, hsC⟩ := cos_sin_atan2 (2 * (q.x * q.y + q.w * q.z))
    (1 - 2 * (q.x ^ 2 + q.z ^ 2)) hpos_C
  rw [hden_C] at hcC hsC
  rw [hEx, hEy, hEz, eulerToQuaternion_YXZ]
  refine eq_or_neg_of_Mh_eq _ q ?_ hq0 ?_
  · rw [qnorm2_qmul, qnorm2_qmul, qnorm2_qX, qnorm2_qY, qnorm2_qZ]
    norm_num
  · rw [Mh_qmul, Mh_qmul, Mh_qX, Mh_qY, Mh_qZ, ← rot3_rotMat q ⟨0, 0, 0⟩ hq0]
    apply Mat3.ext <;>
      simp only [Mat3.mul, RXm, RYm, RZm, rot3, rotMat, mul_zero, zero_mul, add_zero,
        zero_add, mul_one, one_mul, neg_mul, mul_neg, neg_neg, neg_zero]
    case a11 =>
      simp only [hcA, hsA, hcB, hsB, hcC, hsC]
      trans ((1 - 2 * (q.x ^ 2 + q.y ^ 2)) * (1 - 2 * (q.x ^ 2 + q.z ^ 2)) - (2 * (q.y * q.z - q.w * q.x)) * (2 * (q.x * q.z + q.w * q.y)) * (2 * (q.x * q.y + q.w * q.z))) /
        Real.sqrt (1 - (2 * (q.y * q.z - q.w * q.x)) ^ 2) ^ 2
      · ring1
      · have key : (1 - 2 * (q.x ^ 2 + q.y ^ 2)) * (1 - 2 * (q.x ^ 2 + q.z ^ 2)) - (2 * (q.y * q.z - q.w * q.x)) * (2 * (q.x * q.z + q.w * q.y)) * (2 * (q.x * q.y + q.w * q.z)) =
          (1 - 2 * (q.y ^ 2 + q.z ^ 2)) * (1 - (2 * (q.y * q.z - q.w * q.x)) ^ 2) := by
          linear_combination (4 * q.x ^ 2 + 8 * q.x * q.y * q.z * q.w - 8 * q.y ^ 2 * q.z ^ 2) * hq
        rw [key, hsq]
        exact mul_div_cancel_right₀ _ (ne_of_gt ht2)
    case a12 =>
      simp only [hcA, hsA, hcB, hsB, hcC, hsC]
      trans (-((1 - 2 * (q.x ^ 2 + q.y ^ 2)) * (2 * (q.x * q.y + q.w * q.z))) - (2 * (q.y * q.z - q.w * q.x)) * (2 * (q.x * q.z + q.w * q.y)) * (1 - 2 * (q.x ^ 2 + q.z ^ 2))) /
        Real.sqrt (1 - (2 * (q.y * q.z - q.w * q.x)) ^ 2) ^ 2
      · ring1
      · have key : -((1 - 2 * (q.x ^ 2 + q.y ^ 2)) * (2 * (q.x * q.y + q.w * q.z))) - (2 * (q.y * q.z - q.w * q.x)) * (2 * (q.x * q.z + q.w * q.y)) * (1 - 2 * (q.x ^ 2 + q.z ^ 2)) =
          (2 * (q.x * q.y - q.w * q.z)) * (1 - (2 * (q.y * q.z - q.w * q.x)) ^ 2) := by
          linear_combination (-8 * q.x ^ 2 * q.z * q.w + 8 * q.x * q.y * q.z ^ 2 + 4 * q.x * q.y) * hq
        rw [key, hsq]
        exact mul_div_cancel_right₀ _ (ne_of_gt ht2)
    case a13 =>
      simp only [hcA, hsA, hcB, hsB, hcC, hsC]
      field_simp
    case a21 =>
      simp only [hcA, hsA, hcB, hsB, hcC, hsC]
      field_simp
    case a22 =>
      simp only [hcA, hsA, hcB, hsB, hcC, hsC]
      field_simp
    case a23 =>
      simp only [hsA, neg_neg]
    case a31 =>
      simp only [hcA, hsA, hcB, hsB, hcC, hsC]
      trans (-((2 * (q.x * q.z + q.w * q.y)) * (1 - 2 * (q.x ^ 2 + q.z ^ 2))) - (2 * (q.y * q.z - q.w * q.x)) * (1 - 2 * (q.x ^ 2 + q.y ^ 2)) * (2 * (q.x * q.y + q.w * q.z))) /
        Real.sqrt (1 - (2 * (q.y * q.z - q.w * q.x)) ^ 2) ^ 2
      · ring1
      · have key : -((2 * (q.x * q.z + q.w * q.y)) * (1 - 2 * (q.x ^ 2 + q.z ^ 2))) - (2 * (q.y * q.z - q.w * q.x)) * (1 - 2 * (q.x ^ 2 + q.y ^ 2)) * (2 * (q.x * q.y + q.w * q.z)) =
          (2 * (q.x * q.z - q.w * q.y)) * (1 - (2 * (q.y * q.z - q.w * q.x)) ^ 2) := by
          linear_combination (-8 * q.x ^ 2 * q.y * q.w + 8 * q.x * q.y ^ 2 * q.z + 4 * q.x * q.z) * hq
        rw [key, hsq]
        exact mul_div_cancel_right₀ _ (ne_of_gt ht2)
    case a32 =>
      simp only [hcA, hsA, hcB, hsB, hcC, hsC]
      trans ((2 * (q.x * q.z + q.w * q.y)) * (2 * (q.x * q.y + q.w * q.z)) - (2 * (q.y * q.z - q.w * q.x)) * (1 - 2 * (q.x ^ 2 + q.y ^ 2)) * (1 - 2 * (q.x ^ 2 + q.z ^ 2))) /
        Real.sqrt (1 - (2 * (q.y * q.z - q.w * q.x)) ^ 2) ^ 2
      · ring1
      · have key : (2 * (q.x * q.z + q.w * q.y)) * (2 * (q.x * q.y + q.w * q.z)) - (2 * (q.y * q.z - q.w * q.x)) * (1 - 2 * (q.x ^ 2 + q.y ^ 2)) * (1 - 2 * (q.x ^ 2 + q.z ^ 2)) =
          (2 * (q.y * q.z + q.w * q.x)) * (1 - (2 * (q.y * q.z - q.w * q.x)) ^ 2) := by
          linear_combination (8 * q.x ^ 3 * q.w - 8 * q.x ^ 2 * q.y * q.z + 4 * q.y * q.z) * hq
        rw [key, hsq]
        exact mul_div_cancel_right₀ _ (ne_of_gt ht2)
    case a33 =>
      simp only [hcA, hsA, hcB, hsB, hcC, hsC]
      field_simp

theorem roundtrip_ZXY (q : Quat) (hq0 : qnorm2 q = 1)
    (hlock : |2 * (q.y * q.z + q.w * q.x)| < 0.9999999) :
    eulerToQuaternion (quaternionToEuler q .ZXY).x (quaternionToEuler q .ZXY).y
        (quaternionToEuler q .ZXY).z .ZXY = q ∨
      eulerToQuaternion (quaternionToEuler q .ZXY).x (quaternionToEuler q .ZXY).y
        (quaternionToEuler q .ZXY).z .ZXY = q.neg := by
  have hq : q.x ^ 2 + q.y ^ 2 + q.z ^ 2 + q.w ^ 2 = 1 := hq0
  have ht1 : |2 * (q.y * q.z + q.w * q.x)| < 1 := lt_trans hlock (by norm_num)
  have ht2 : 0 < 1 - (2 * (q.y * q.z + q.w * q.x)) ^ 2 := by
    nlinarith [sq_abs (2 * (q.y * q.z + q.w * q.x)),
      abs_nonneg (2 * (q.y * q.z + q.w * q.x)), ht1]
  have hsq : Real.sqrt (1 - (2 * (q.y * q.z + q.w * q.x)) ^ 2) ^ 2 =
      1 - (2 * (q.y * q.z + q.w * q.x)) ^ 2 := Real.sq_sqrt (le_of_lt ht2)
  have hRne : Real.sqrt (1 - (2 * (q.y * q.z + q.w * q.x)) ^ 2) ≠ 0 :=
    ne_of_gt (Real.sqrt_pos.mpr ht2)
  have hE : quaternionToEuler q .ZXY =
      ⟨Real.arcsin (clamp (2 * (q.y * q.z + q.w * q.x)) (-1) 1),
       atan2 (-(2 * (q.x * q.z - q.w * q.y))) (1 - 2 * (q.x ^ 2 + q.y ^ 2)),
       atan2 (-(2 * (q.x * q.y - q.w * q.z))) (1 - 2 * (q.x ^ 2 + q.z ^ 2))⟩ := by
    unfold quaternionToEuler
    rw [makeRotationFromQuaternion_eq]
    simp only [eulerFromRotationMatrix, rotMat]
    rw [if_pos hlock]
  have hEx : (quaternionToEuler q .ZXY).x =
      Real.arcsin (clamp (2 * (q.y * q.z + q.w * q.x)) (-1) 1) := by rw [hE]
  have hEy : (quaternionToEuler q .ZXY).y =
      atan2 (-(2 * (q.x * q.z - q.w * q.y))) (1 - 2 * (q.x ^ 2 + q.y ^ 2)) := by rw [hE]
  have hEz : (quaternionToEuler q .ZXY).z =
      atan2 (-(2 * (q.x * q.y - q.w * q.z))) (1 - 2 * (q.x ^ 2 + q.z ^ 2)) := by rw [hE]
  obtain ⟨hsA, hcA⟩ := sin_cos_arcsin_clamp (2 * (q.y * q.z + q.w * q.x)) ht1
  have hden_B : (1 - 2 * (q.x ^ 2 + q.y ^ 2)) ^ 2 + (-(2 * (q.x * q.z - q.w * q.y))) ^ 2 =
      1 - (2 * (q.y * q.z + q.w * q.x)) ^ 2 := by
    linear_combination (4 * q.x ^ 2 + 4 * q.y ^ 2) * hq
  have hpos_B : 0 < (1 - 2 * (q.x ^ 2 + q.y ^ 2)) ^ 2 + (-(2 * (q.x * q.z - q.w * q.y))) ^ 2 := by
    rw [hden_B]
    exact ht2
  obtain ⟨hcB, hsB⟩ := cos_sin_atan2 (-(2 * (q.x * q.z - q.w * q.y)))
    (1 - 2 * (q.x ^ 2 + q.y ^ 2)) hpos_B
  rw [hden_B] at hcB hsB
  have hden_C : (1 - 2 * (q.x ^ 2 + q.z ^ 2)) ^ 2 + (-(2 * (q.x * q.y - q.w * q.z))) ^ 2 =
      1 - (2 * (q.y * q.z + q.w * q.x)) ^ 2 := by
    linear_combination (4 * q.x ^ 2 + 4 * q.z ^ 2) * hq
  have hpos_C : 0 < (1 - 2 * (q.x ^ 2 + q.z ^ 2)) ^ 2 + (-(2 * (q.x * q.y - q.w * q.z))) ^ 2 := by
    rw [hden_C]
    exact ht2
  obtain ⟨hcC, hsC⟩ := cos_sin_atan2 (-(2 * (q.x * q.y - q.w * q.z)))
    (1 - 2 * (q.x ^ 2 + q.z ^ 2)) hpos_C
  rw [hden_C] at hcC hsC
  rw [hEx, hEy, hEz, eulerToQuaternion_ZXY]
  refine eq_or_neg_of_Mh_eq _ q ?_ hq0 ?_
  · rw [qnorm2_qmul, qnorm2_qmul, qnorm2_qX, qnorm2_qY, qnorm2_qZ]
    norm_num
  · rw [Mh_qmul, Mh_qmul, Mh_qX, Mh_qY, Mh_qZ, ← rot3_rotMat q ⟨0, 0, 0⟩ hq0]
    apply Mat3.ext <;>
      simp only [Mat3.mul, RXm, RYm, RZm, rot3, rotMat, mul_zero, zero_mul, add_zero,
        zero_add, mul_one, one_mul, neg_mul, mul_neg, neg_neg, neg_zero]
    case a11 =>
      simp only [hcA, hsA, hcB, hsB, hcC, hsC]
      trans ((1 - 2 * (q.x ^ 2 + q.z ^ 2)) * (1 - 2 * (q.x ^ 2 + q.y ^ 2)) - (2 * (q.y * q.z + q.w * q.x)) * (2 * (q.x * q.y - q.w * q.z)) * (2 * (q.x * q.z - q.w * q.y))) /
        Real.sqrt (1 - (2 * (q.y * q.z + q.w * q.x)) ^ 2) ^ 2
      · ring1
      · have key : (1 - 2 * (q.x ^ 2 + q.z ^ 2)) * (1 - 2 * (q.x ^ 2 + q.y ^ 2)) - (2 * (q.y * q.z + q.w * q.x)) * (2 * (q.x * q.y - q.w * q.z)) * (2 * (q.x * q.z - q.w * q.y)) =
          (1 - 2 * (q.y ^ 2 + q.z ^ 2)) * (1 - (2 * (q.y * q.z + q.w * q.x)) ^ 2) := by
          linear_combination (4 * q.x ^ 2 - 8 * q.x * q.y * q.z * q.w - 8 * q.y ^ 2 * q.z ^ 2) * hq
        rw [key, hsq]
        exact mul_div_cancel_right₀ _ (ne_of_gt ht2)
    case a12 =>
      simp only [hcA, hsA, hcB, hsB, hcC, hsC]
      field_simp
    case a13 =>
      simp only [hcA, hsA, hcB, hsB, hcC, hsC]
      trans (-((1 - 2 * (q.x ^ 2 + q.z ^ 2)) * (2 * (q.x * q.z - q.w * q.y))) - (2 * (q.y * q.z + q.w * q.x)) * (2 * (q.x * q.y - q.w * q.z)) * (1 - 2 * (q.x ^ 2 + q.y ^ 2))) /
        Real.sqrt (1 - (2 * (q.y * q.z + q.w * q.x)) ^ 2) ^ 2
      · ring1
      · have key : -((1 - 2 * (q.x ^ 2 + q.z ^ 2)) * (2 * (q.x * q.z - q.w * q.y))) - (2 * (q.y * q.z + q.w * q.x)) * (2 * (q.x * q.y - q.w * q.z)) * (1 - 2 * (q.x ^ 2 + q.y ^ 2)) =
          (2 * (q.x * q.z + q.w * q.y)) * (1 - (2 * (q.y * q.z + q.w * q.x)) ^ 2) := by
          linear_combination (8 * q.x ^ 2 * q.y * q.w + 8 * q.x * q.y ^ 2 * q.z + 4 * q.x * q.z) * hq
        rw [key, hsq]
        exact mul_div_cancel_right₀ _ (ne_of_gt ht2)
    case a21 =>
      simp only [hcA, hsA, hcB, hsB, hcC, hsC]
      trans (-((2 * (q.x * q.y - q.w * q.z)) * (1 - 2 * (q.x ^ 2 + q.y ^ 2))) - (2 * (q.y * q.z + q.w * q.x)) * (1 - 2 * (q.x ^ 2 + q.z ^ 2)) * (2 * (q.x * q.z - q.w * q.y))) /
        Real.sqrt (1 - (2 * (q.y * q.z + q.w * q.x)) ^ 2) ^ 2
      · ring1
      · have key : -((2 * (q.x * q.y - q.w * q.z)) * (1 - 2 * (q.x ^ 2 + q.y ^ 2))) - (2 * (q.y * q.z + q.w * q.x)) * (1 - 2 * (q.x ^ 2 + q.z ^ 2)) * (2 * (q.x * q.z - q.w * q.y)) =
          (2 * (q.x * q.y + q.w * q.z)) * (1 - (2 * (q.y * q.z + q.w * q.x)) ^ 2) := by
          linear_combination (8 * q.x ^ 2 * q.z * q.w + 8 * q.x * q.y * q.z ^ 2 + 4 * q.x * q.y) * hq
        rw [key, hsq]
        exact mul_div_cancel_right₀ _ (ne_of_gt ht2)
    case a22 =>
      simp only [hcA, hsA, hcB, hsB, hcC, hsC]
      field_simp
    case a23 =>
      simp only [hcA, hsA, hcB, hsB, hcC, hsC]
      trans ((2 * (q.x * q.y - q.w * q.z)) * (2 * (q.x * q.z - q.w * q.y)) - (2 * (q.y * q.z + q.w * q.x)) * (1 - 2 * (q.x ^ 2 + q.z ^ 2)) * (1 - 2 * (q.x ^ 2 + q.y ^ 2))) /
        Real.sqrt (1 - (2 * (q.y * q.z + q.w * q.x)) ^ 2) ^ 2
      · ring1
      · have key : (2 * (q.x * q.y - q.w * q.z)) * (2 * (q.x * q.z - q.w * q.y)) - (2 * (q.y * q.z + q.w * q.x)) * (1 - 2 * (q.x ^ 2 + q.z ^ 2)) * (1 - 2 * (q.x ^ 2 + q.y ^ 2)) =
          (2 * (q.y * q.z - q.w * q.x)) * (1 - (2 * (q.y * q.z + q.w * q.x)) ^ 2) := by
          linear_combination (-8 * q.x ^ 3 * q.w - 8 * q.x ^ 2 * q.y * q.z + 4 * q.y * q.z) * hq
        rw [key, hsq]
        exact mul_div_cancel_right₀ _ (ne_of_gt ht2)
    case a31 =>
      simp only [hcA, hsA, hcB, hsB, hcC, hsC]
      field_simp
    case a32 =>
      simp only [hsA]
    case a33 =>
      simp only [hcA, hsA, hcB, hsB, hcC, hsC]
      field_simp

theorem roundtrip_ZYX (q : Quat) (hq0 : qnorm2 q = 1)
    (hlock : |2 * (q.x * q.z - q.w * q.y)| < 0.9999999) :
    eulerToQuaternion (quaternionToEuler q .ZYX).x (quaternionToEuler q .ZYX).y
        (quaternionToEuler q .ZYX).z .ZYX = q ∨
      eulerToQuaternion (quaternionToEuler q .ZYX).x (quaternionToEuler q .ZYX).y
        (quaternionToEuler q .ZYX).z .ZYX = q.neg := by
  have hq : q.x ^ 2 + q.y ^ 2 + q.z ^ 2 + q.w ^ 2 = 1 := hq0
  have ht1 : |2 * (q.x * q.z - q.w * q.y)| < 1 := lt_trans hlock (by norm_num)
  have ht2 : 0 < 1 - (2 * (q.x * q.z - q.w * q.y)) ^ 2 := by
    nlinarith [sq_abs (2 * (q.x * q.z - q.w * q.y)),
      abs_nonneg (2 * (q.x * q.z - q.w * q.y)), ht1]
  have hsq : Real.sqrt (1 - (2 * (q.x * q.z - q.w * q.y)) ^ 2) ^ 2 =
      1 - (2 * (q.x * q.z - q.w * q.y)) ^ 2 := Real.sq_sqrt (le_of_lt ht2)
  have hRne : Real.sqrt (1 - (2 * (q.x * q.z - q.w * q.y)) ^ 2) ≠ 0 :=
    ne_of_gt (Real.sqrt_pos.mpr ht2)
  have hE : quaternionToEuler q .ZYX =
      ⟨atan2 (2 * (q.y * q.z + q.w * q.x)) (1 - 2 * (q.x ^ 2 + q.y ^ 2)),
       Real.arcsin (-(clamp (2 * (q.x * q.z - q.w * q.y)) (-1) 1)),
       atan2 (2 * (q.x * q.y + q.w * q.z)) (1 - 2 * (q.y ^ 2 + q.z ^ 2))⟩ := by
    unfold quaternionToEuler
    rw [makeRotationFromQuaternion_eq]
    simp only [eulerFromRotationMatrix, rotMat]
    rw [if_pos hlock]
  have hEx : (quaternionToEuler q .ZYX).x =
      atan2 (2 * (q.y * q.z + q.w * q.x)) (1 - 2 * (q.x ^ 2 + q.y ^ 2)) := by rw [hE]
  have hEy : (quaternionToEuler q .ZYX).y =
      Real.arcsin (-(clamp (2 * (q.x * q.z - q.w * q.y)) (-1) 1)) := by rw [hE]
  have hEz : (quaternionToEuler q .ZYX).z =
      atan2 (2 * (q.x * q.y + q.w * q.z)) (1 - 2 * (q.y ^ 2 + q.z ^ 2)) := by rw [hE]
  obtain ⟨hsB, hcB⟩ := sin_cos_arcsin_neg_clamp (2 * (q.x * q.z - q.w * q.y)) ht1
  have hden_A : (1 - 2 * (q.x ^ 2 + q.y ^ 2)) ^ 2 + (2 * (q.y * q.z + q.w * q.x)) ^ 2 =
      1 - (2 * (q.x * q.z - q.w * q.y)) ^ 2 := by
    linear_combination (4 * q.x ^ 2 + 4 * q.y ^ 2) * hq
  have hpos_A : 0 < (1 - 2 * (q.x ^ 2 + q.y ^ 2)) ^ 2 + (2 * (q.y * q.z + q.w * q.x)) ^ 2 := by
    rw [hden_A]
    exact ht2
  obtain ⟨hcA, hsA⟩ := cos_sin_atan2 (2 * (q.y * q.z + q.w * q.x))
    (1 - 2 * (q.x ^ 2 + q.y ^ 2)) hpos_A
  rw [hden_A] at hcA hsA
  have hden_C : (1 - 2 * (q.y ^ 2 + q.z ^ 2)) ^ 2 + (2 * (q.x * q.y + q.w * q.z)) ^ 2 =
      1 - (2 * (q.x * q.z - q.w * q.y)) ^ 2 := by
    linear_combination (4 * q.y ^ 2 + 4 * q.z ^ 2) * hq
  have hpos_C : 0 < (1 - 2 * (q.y ^ 2 + q.z ^ 2)) ^ 2 + (2 * (q.x * q.y + q.w * q.z)) ^ 2 := by
    rw [hden_C]
    exact ht2
  obtain ⟨hcC, hsC⟩ := cos_sin_atan2 (2 * (q.x * q.y + q.w * q.z))
    (1 - 2 * (q.y ^ 2 + q.z ^ 2)) hpos_C
  rw [hden_C] at hcC hsC
  rw [hEx, hEy, hEz, eulerToQuaternion_ZYX]
  refine eq_or_neg_of_Mh_eq _ q ?_ hq0 ?_
  · rw [qnorm2_qmul, qnorm2_qmul, qnorm2_qX, qnorm2_qY, qnorm2_qZ]
    norm_num
  · rw [Mh_qmul, Mh_qmul, Mh_qX, Mh_qY, Mh_qZ, ← rot3_rotMat q ⟨0, 0, 0⟩ hq0]
    apply Mat3.ext <;>
      simp only [Mat3.mul, RXm, RYm, RZm, rot3, rotMat, mul_zero, zero_mul, add_zero,
        zero_add, mul_one, one_mul, neg_mul, mul_neg, neg_neg, neg_zero]
    case a11 =>
      simp only [hcA, hsA, hcB, hsB, hcC, hsC]
      field_simp
    case a12 =>
      simp only [hcA, hsA, hcB, hsB, hcC, hsC]
      trans (-((2 * (q.x * q.y + q.w * q.z)) * (1 - 2 * (q.x ^ 2 + q.y ^ 2))) - (2 * (q.x * q.z - q.w * q.y)) * (1 - 2 * (q.y ^ 2 + q.z ^ 2)) * (2 * (q.y * q.z + q.w * q.x))) /
        Real.sqrt (1 - (2 * (q.x * q.z - q.w * q.y)) ^ 2) ^ 2
      · ring1
      · have key : -((2 * (q.x * q.y + q.w * q.z)) * (1 - 2 * (q.x ^ 2 + q.y ^ 2))) - (2 * (q.x * q.z - q.w * q.y)) * (1 - 2 * (q.y ^ 2 + q.z ^ 2)) * (2 * (q.y * q.z + q.w * q.x)) =
          (2 * (q.x * q.y - q.w * q.z)) * (1 - (2 * (q.x * q.z - q.w * q.y)) ^ 2) := by
          linear_combination (8 * q.x * q.y * q.z ^ 2 + 4 * q.x * q.y - 8 * q.y ^ 2 * q.z * q.w) * hq
        rw [key, hsq]
        exact mul_div_cancel_right₀ _ (ne_of_gt ht2)
    case a13 =>
      simp only [hcA, hsA, hcB, hsB, hcC, hsC]
      trans ((2 * (q.x * q.y + q.w * q.z)) * (2 * (q.y * q.z + q.w * q.x)) - (2 * (q.x * q.z - q.w * q.y)) * (1 - 2 * (q.y ^ 2 + q.z ^ 2)) * (1 - 2 * (q.x ^ 2 + q.y ^ 2))) /
        Real.sqrt (1 - (2 * (q.x * q.z - q.w * q.y)) ^ 2) ^ 2
      · ring1
      · have key : (2 * (q.x * q.y + q.w * q.z)) * (2 * (q.y * q.z + q.w * q.x)) - (2 * (q.x * q.z - q.w * q.y)) * (1 - 2 * (q.y ^ 2 + q.z ^ 2)) * (1 - 2 * (q.x ^ 2 + q.y ^ 2)) =
          (2 * (q.x * q.z + q.w * q.y)) * (1 - (2 * (q.x * q.z - q.w * q.y)) ^ 2) := by
          linear_combination (-8 * q.x * q.y ^ 2 * q.z + 4 * q.x * q.z + 8 * q.y ^ 3 * q.w) * hq
        rw [key, hsq]
        exact mul_div_cancel_right₀ _ (ne_of_gt ht2)
    case a21 =>
      simp only [hcA, hsA, hcB, hsB, hcC, hsC]
      field_simp
    case a22 =>
      simp only [hcA, hsA, hcB, hsB, hcC, hsC]
      trans ((1 - 2 * (q.y ^ 2 + q.z ^ 2)) * (1 - 2 * (q.x ^ 2 + q.y ^ 2)) - (2 * (q.x * q.z - q.w * q.y)) * (2 * (q.x * q.y + q.w * q.z)) * (2 * (q.y * q.z + q.w * q.x))) /
        Real.sqrt (1 - (2 * (q.x * q.z - q.w * q.y)) ^ 2) ^ 2
      · ring1
      · have key : (1 - 2 * (q.y ^ 2 + q.z ^ 2)) * (1 - 2 * (q.x ^ 2 + q.y ^ 2)) - (2 * (q.x * q.z - q.w * q.y)) * (2 * (q.x * q.y + q.w * q.z)) * (2 * (q.y * q.z + q.w * q.x)) =
          (1 - 2 * (q.x ^ 2 + q.z ^ 2)) * (1 - (2 * (q.x * q.z - q.w * q.y)) ^ 2) := by
          linear_combination (-8 * q.x ^ 2 * q.z ^ 2 + 8 * q.x * q.y * q.z * q.w + 4 * q.y ^ 2) * hq
        rw [key, hsq]
        exact mul_div_cancel_right₀ _ (ne_of_gt ht2)
    case a23 =>
      simp only [hcA, hsA, hcB, hsB, hcC, hsC]
      trans (-((1 - 2 * (q.y ^ 2 + q.z ^ 2)) * (2 * (q.y * q.z + q.w * q.x))) - (2 * (q.x * q.z - q.w * q.y)) * (2 * (q.x * q.y + q.w * q.z)) * (1 - 2 * (q.x ^ 2 + q.y ^ 2))) /
        Real.sqrt (1 - (2 * (q.x * q.z - q.w * q.y)) ^ 2) ^ 2
      · ring1
      · have key : -((1 - 2 * (q.y ^ 2 + q.z ^ 2)) * (2 * (q.y * q.z + q.w * q.x))) - (2 * (q.x * q.z - q.w * q.y)) * (2 * (q.x * q.y + q.w * q.z)) * (1 - 2 * (q.x ^ 2 + q.y ^ 2)) =
          (2 * (q.y * q.z - q.w * q.x)) * (1 - (2 * (q.x * q.z - q.w * q.y)) ^ 2) := by
          linear_combination (8 * q.x ^ 2 * q.y * q.z - 8 * q.x * q.y ^ 2 * q.w + 4 * q.y * q.z) * hq
        rw [key, hsq]
        exact mul_div_cancel_right₀ _ (ne_of_gt ht2)
    case a31 =>
      simp only [hsB, neg_neg]
    case a32 =>
      simp only [hcA, hsA, hcB, hsB, hcC, hsC]
      field_simp
    case a33 =>
      simp only [hcA, hsA, hcB, hsB, hcC, hsC]
      field_simp

theorem roundtrip_YZX (q : Quat) (hq0 : qnorm2 q = 1)
    (hlock : |2 * (q.x * q.y + q.w * q.z)| < 0.9999999) :
    eulerToQuaternion (quaternionToEuler q .YZX).x (quaternionToEuler q .YZX).y
        (quaternionToEuler q .YZX).z .YZX = q ∨
      eulerToQuaternion (quaternionToEuler q .YZX).x (quaternionToEuler q .YZX).y
        (quaternionToEuler q .YZX).z .YZX = q.neg := by
  have hq : q.x ^ 2 + q.y ^ 2 + q.z ^ 2 + q.w ^ 2 = 1 := hq0
  have ht1 : |2 * (q.x * q.y + q.w * q.z)| < 1 := lt_trans hlock (by norm_num)
  have ht2 : 0 < 1 - (2 * (q.x * q.y + q.w * q.z)) ^ 2 := by
    nlinarith [sq_abs (2 * (q.x * q.y + q.w * q.z)),
      abs_nonneg (2 * (q.x * q.y + q.w * q.z)), ht1]
  have hsq : Real.sqrt (1 - (2 * (q.x * q.y + q.w * q.z)) ^ 2) ^ 2 =
      1 - (2 * (q.x * q.y + q.w * q.z)) ^ 2 := Real.sq_sqrt (le_of_lt ht2)
  have hRne : Real.sqrt (1 - (2 * (q.x * q.y + q.w * q.z)) ^ 2) ≠ 0 :=
    ne_of_gt (Real.sqrt_pos.mpr ht2)
  have hE : quaternionToEuler q .YZX =
      ⟨atan2 (-(2 * (q.y * q.z - q.w * q.x))) (1 - 2 * (q.x ^ 2 + q.z ^ 2)),
       atan2 (-(2 * (q.x * q.z - q.w * q.y))) (1 - 2 * (q.y ^ 2 + q.z ^ 2)),
       Real.arcsin (clamp (2 * (q.x * q.y + q.w * q.z)) (-1) 1)⟩ := by
    unfold quaternionToEuler
    rw [makeRotationFromQuaternion_eq]
    simp only [eulerFromRotationMatrix, rotMat]
    rw [if_pos hlock]
  have hEx : (quaternionToEuler q .YZX).x =
      atan2 (-(2 * (q.y * q.z - q.w * q.x))) (1 - 2 * (q.x ^ 2 + q.z ^ 2)) := by rw [hE]
  have hEy : (quaternionToEuler q .YZX).y =
      atan2 (-(2 * (q.x * q.z - q.w * q.y))) (1 - 2 * (q.y ^ 2 + q.z ^ 2)) := by rw [hE]
  have hEz : (quaternionToEuler q .YZX).z =
      Real.arcsin (clamp (2 * (q.x * q.y + q.w * q.z)) (-1) 1) := by rw [hE]
  obtain ⟨hsC, hcC⟩ := sin_cos_arcsin_clamp (2 * (q.x * q.y + q.w * q.z)) ht1
  have hden_A : (1 - 2 * (q.x ^ 2 + q.z ^ 2)) ^ 2 + (-(2 * (q.y * q.z - q.w * q.x))) ^ 2 =
      1 - (2 * (q.x * q.y + q.w * q.z)) ^ 2 := by
    linear_combination (4 * q.x ^ 2 + 4 * q.z ^ 2) * hq
  have hpos_A : 0 < (1 - 2 * (q.x ^ 2 + q.z ^ 2)) ^ 2 + (-(2 * (q.y * q.z - q.w * q.x))) ^ 2 := by
    rw [hden_A]
    exact ht2
  obtain ⟨hcA, hsA⟩ := cos_sin_atan2 (-(2 * (q.y * q.z - q.w * q.x)))
    (1 - 2 * (q.x ^ 2 + q.z ^ 2)) hpos_A
  rw [hden_A] at hcA hsA
  have hden_B : (1 - 2 * (q.y ^ 2 + q.z ^ 2)) ^ 2 + (-(2 * (q.x * q.z - q.w * q.y))) ^ 2 =
      1 - (2 * (q.x * q.y + q.w * q.z)) ^ 2 := by
    linear_combination (4 * q.y ^ 2 + 4 * q.z ^ 2) * hq
  have hpos_B : 0 < (1 - 2 * (q.y ^ 2 + q.z ^ 2)) ^ 2 + (-(2 * (q.x * q.z - q.w * q.y))) ^ 2 := by
    rw [hden_B]
    exact ht2
  obtain ⟨hcB, hsB⟩ := cos_sin_atan2 (-(2 * (q.x * q.z - q.w * q.y)))
    (1 - 2 * (q.y ^ 2 + q.z ^ 2)) hpos_B
  rw [hden_B] at hcB hsB
  rw [hEx, hEy, hEz, eulerToQuaternion_YZX]
  refine eq_or_neg_of_Mh_eq _ q ?_ hq0 ?_
  · rw [qnorm2_qmul, qnorm2_qmul, qnorm2_qX, qnorm2_qY, qnorm2_qZ]
    norm_num
  · rw [Mh_qmul, Mh_qmul, Mh_qX, Mh_qY, Mh_qZ, ← rot3_rotMat q ⟨0, 0, 0⟩ hq0]
    apply Mat3.ext <;>
      simp only [Mat3.mul, RXm, RYm, RZm, rot3, rotMat, mul_zero, zero_mul, add_zero,
        zero_add, mul_one, one_mul, neg_mul, mul_neg, neg_neg, neg_zero]
    case a11 =>
      simp only [hcA, hsA, hcB, hsB, hcC, hsC]
      field_simp
    case a12 =>
      simp only [hcA, hsA, hcB, hsB, hcC, hsC]
      trans ((2 * (q.x * q.z - q.w * q.y)) * (2 * (q.y * q.z - q.w * q.x)) - (2 * (q.x * q.y + q.w * q.z)) * (1 - 2 * (q.y ^ 2 + q.z ^ 2)) * (1 - 2 * (q.x ^ 2 + q.z ^ 2))) /
        Real.sqrt (1 - (2 * (q.x * q.y + q.w * q.z)) ^ 2) ^ 2
      · ring1
      · have key : (2 * (q.x * q.z - q.w * q.y)) * (2 * (q.y * q.z - q.w * q.x)) - (2 * (q.x * q.y + q.w * q.z)) * (1 - 2 * (q.y ^ 2 + q.z ^ 2)) * (1 - 2 * (q.x ^ 2 + q.z ^ 2)) =
          (2 * (q.x * q.y - q.w * q.z)) * (1 - (2 * (q.x * q.y + q.w * q.z)) ^ 2) := by
          linear_combination (-8 * q.x * q.y * q.z ^ 2 + 4 * q.x * q.y - 8 * q.z ^ 3 * q.w) * hq
        rw [key, hsq]
        exact mul_div_cancel_right₀ _ (ne_of_gt ht2)
    case a13 =>
      simp only [hcA, hsA, hcB, hsB, hcC, hsC]
      trans (-((2 * (q.x * q.y + q.w * q.z)) * (1 - 2 * (q.y ^ 2 + q.z ^ 2)) * (2 * (q.y * q.z - q.w * q.x))) - (2 * (q.x * q.z - q.w * q.y)) * (1 - 2 * (q.x ^ 2 + q.z ^ 2))) /
        Real.sqrt (1 - (2 * (q.x * q.y + q.w * q.z)) ^ 2) ^ 2
      · ring1
      · have key : -((2 * (q.x * q.y + q.w * q.z)) * (1 - 2 * (q.y ^ 2 + q.z ^ 2)) * (2 * (q.y * q.z - q.w * q.x))) - (2 * (q.x * q.z - q.w * q.y)) * (1 - 2 * (q.x ^ 2 + q.z ^ 2)) =
          (2 * (q.x * q.z + q.w * q.y)) * (1 - (2 * (q.x * q.y + q.w * q.z)) ^ 2) := by
          linear_combination (8 * q.x * q.y ^ 2 * q.z + 4 * q.x * q.z + 8 * q.y * q.z ^ 2 * q.w) * hq
        rw [key, hsq]
        exact mul_div_cancel_right₀ _ (ne_of_gt ht2)
    case a21 =>
      simp only [hsC]
    case a22 =>
      simp only [hcA, hsA, hcB, hsB, hcC, hsC]
      field_simp
    case a23 =>
      simp only [hcA, hsA, hcB, hsB, hcC, hsC]
      field_simp
    case a31 =>
      simp only [hcA, hsA, hcB, hsB, hcC, hsC]
      field_simp
    case a32 =>
      simp only [hcA, hsA, hcB, hsB, hcC, hsC]
      trans (-((2 * (q.x * q.y + q.w * q.z)) * (2 * (q.x * q.z - q.w * q.y)) * (1 - 2 * (q.x ^ 2 + q.z ^ 2))) - (1 - 2 * (q.y ^ 2 + q.z ^ 2)) * (2 * (q.y * q.z - q.w * q.x))) /
        Real.sqrt (1 - (2 * (q.x * q.y + q.w * q.z)) ^ 2) ^ 2
      · ring1
      · have key : -((2 * (q.x * q.y + q.w * q.z)) * (2 * (q.x * q.z - q.w * q.y)) * (1 - 2 * (q.x ^ 2 + q.z ^ 2))) - (1 - 2 * (q.y ^ 2 + q.z ^ 2)) * (2 * (q.y * q.z - q.w * q.x)) =
          (2 * (q.y * q.z + q.w * q.x)) * (1 - (2 * (q.x * q.y + q.w * q.z)) ^ 2) := by
          linear_combination (8 * q.x ^ 2 * q.y * q.z + 8 * q.x * q.z ^ 2 * q.w + 4 * q.y * q.z) * hq
        rw [key, hsq]
        exact mul_div_cancel_right₀ _ (ne_of_gt ht2)
    case a33 =>
      simp only [hcA, hsA, hcB, hsB, hcC, hsC]
      trans ((1 - 2 * (q.y ^ 2 + q.z ^ 2)) * (1 - 2 * (q.x ^ 2 + q.z ^ 2)) - (2 * (q.x * q.y + q.w * q.z)) * (2 * (q.x * q.z - q.w * q.y)) * (2 * (q.y * q.z - q.w * q.x))) /
        Real.sqrt (1 - (2 * (q.x * q.y + q.w * q.z)) ^ 2) ^ 2
      · ring1
      · have key : (1 - 2 * (q.y ^ 2 + q.z ^ 2)) * (1 - 2 * (q.x ^ 2 + q.z ^ 2)) - (2 * (q.x * q.y + q.w * q.z)) * (2 * (q.x * q.z - q.w * q.y)) * (2 * (q.y * q.z - q.w * q.x)) =
          (1 - 2 * (q.x ^ 2 + q.y ^ 2)) * (1 - (2 * (q.x * q.y + q.w * q.z)) ^ 2) := by
          linear_combination (-8 * q.x ^ 2 * q.y ^ 2 - 8 * q.x * q.y * q.z * q.w + 4 * q.z ^ 2) * hq
        rw [key, hsq]
        exact mul_div_cancel_right₀ _ (ne_of_gt ht2)

theorem roundtrip_XZY (q : Quat) (hq0 : qnorm2 q = 1)
    (hlock : |2 * (q.x * q.y - q.w * q.z)| < 0.9999999) :
    eulerToQuaternion (quaternionToEuler q .XZY).x (quaternionToEuler q .XZY).y
        (quaternionToEuler q .XZY).z .XZY = q ∨
      eulerToQuaternion (quaternionToEuler q .XZY).x (quaternionToEuler q .XZY).y
        (quaternionToEuler q .XZY).z .XZY = q.neg := by
  have hq : q.x ^ 2 + q.y ^ 2 + q.z ^ 2 + q.w ^ 2 = 1 := hq0
  have ht1 : |2 * (q.x * q.y - q.w * q.z)| < 1 := lt_trans hlock (by norm_num)
  have ht2 : 0 < 1 - (2 * (q.x * q.y - q.w * q.z)) ^ 2 := by
    nlinarith [sq_abs (2 * (q.x * q.y - q.w * q.z)),
      abs_nonneg (2 * (q.x * q.y - q.w * q.z)), ht1]
  have hsq : Real.sqrt (1 - (2 * (q.x * q.y - q.w * q.z)) ^ 2) ^ 2 =
      1 - (2 * (q.x * q.y - q.w * q.z)) ^ 2 := Real.sq_sqrt (le_of_lt ht2)
  have hRne : Real.sqrt (1 - (2 * (q.x * q.y - q.w * q.z)) ^ 2) ≠ 0 :=
    ne_of_gt (Real.sqrt_pos.mpr ht2)
  have hE : quaternionToEuler q .XZY =
      ⟨atan2 (2 * (q.y * q.z + q.w * q.x)) (1 - 2 * (q.x ^ 2 + q.z ^ 2)),
       atan2 (2 * (q.x * q.z + q.w * q.y)) (1 - 2 * (q.y ^ 2 + q.z ^ 2)),
       Real.arcsin (-(clamp (2 * (q.x * q.y - q.w * q.z)) (-1) 1))⟩ := by
    unfold quaternionToEuler
    rw [makeRotationFromQuaternion_eq]
    simp only [eulerFromRotationMatrix, rotMat]
    rw [if_pos hlock]
  have hEx : (quaternionToEuler q .XZY).x =
      atan2 (2 * (q.y * q.z + q.w * q.x)) (1 - 2 * (q.x ^ 2 + q.z ^ 2)) := by rw [hE]
  have hEy : (quaternionToEuler q .XZY).y =
      atan2 (2 * (q.x * q.z + q.w * q.y)) (1 - 2 * (q.y ^ 2 + q.z ^ 2)) := by rw [hE]
  have hEz : (quaternionToEuler q .XZY).z =
      Real.arcsin (-(clamp (2 * (q.x * q.y - q.w * q.z)) (-1) 1)) := by rw [hE]
  obtain ⟨hsC, hcC⟩ := sin_cos_arcsin_neg_clamp (2 * (q.x * q.y - q.w * q.z)) ht1
  have hden_A : (1 - 2 * (q.x ^ 2 + q.z ^ 2)) ^ 2 + (2 * (q.y * q.z + q.w * q.x)) ^ 2 =
      1 - (2 * (q.x * q.y - q.w * q.z)) ^ 2 := by
    linear_combination (4 * q.x ^ 2 + 4 * q.z ^ 2) * hq
  have hpos_A : 0 < (1 - 2 * (q.x ^ 2 + q.z ^ 2)) ^ 2 + (2 * (q.y * q.z + q.w * q.x)) ^ 2 := by
    rw [hden_A]
    exact ht2
  obtain ⟨hcA, hsA⟩ := cos_sin_atan2 (2 * (q.y * q.z + q.w * q.x))
    (1 - 2 * (q.x ^ 2 + q.z ^ 2)) hpos_A
  rw [hden_A] at hcA hsA
  have hden_B : (1 - 2 * (q.y ^ 2 + q.z ^ 2)) ^ 2 + (2 * (q.x * q.z + q.w * q.y)) ^ 2 =
      1 - (2 * (q.x * q.y - q.w * q.z)) ^ 2 := by
    linear_combination (4 * q.y ^ 2 + 4 * q.z ^ 2) * hq
  have hpos_B : 0 < (1 - 2 * (q.y ^ 2 + q.z ^ 2)) ^ 2 + (2 * (q.x * q.z + q.w * q.y)) ^ 2 := by
    rw [hden_B]
    exact ht2
  obtain ⟨hcB, hsB⟩ := cos_sin_atan2 (2 * (q.x * q.z + q.w * q.y))
    (1 - 2 * (q.y ^ 2 + q.z ^ 2)) hpos_B
  rw [hden_B] at hcB hsB
  rw [hEx, hEy, hEz, eulerToQuaternion_XZY]
  refine eq_or_neg_of_Mh_eq _ q ?_ hq0 ?_
  · rw [qnorm2_qmul, qnorm2_qmul, qnorm2_qX, qnorm2_qY, qnorm2_qZ]
    norm_num
  · rw [Mh_qmul, Mh_qmul, Mh_qX, Mh_qY, Mh_qZ, ← rot3_rotMat q ⟨0, 0, 0⟩ hq0]
    apply Mat3.ext <;>
      simp only [Mat3.mul, RXm, RYm, RZm, rot3, rotMat, mul_zero, zero_mul, add_zero,
        zero_add, mul_one, one_mul, neg_mul, mul_neg, neg_neg, neg_zero]
    case a11 =>
      simp only [hcA, hsA, hcB, hsB, hcC, hsC]
      field_simp
    case a12 =>
      simp only [hsC, neg_neg]
    case a13 =>
      simp only [hcA, hsA, hcB, hsB, hcC, hsC]
      field_simp
    case a21 =>
      simp only [hcA, hsA, hcB, hsB, hcC, hsC]
      trans ((2 * (q.y * q.z + q.w * q.x)) * (2 * (q.x * q.z + q.w * q.y)) - (2 * (q.x * q.y - q.w * q.z)) * (1 - 2 * (q.x ^ 2 + q.z ^ 2)) * (1 - 2 * (q.y ^ 2 + q.z ^ 2))) /
        Real.sqrt (1 - (2 * (q.x * q.y - q.w * q.z)) ^ 2) ^ 2
      · ring1
      · have key : (2 * (q.y * q.z + q.w * q.x)) * (2 * (q.x * q.z + q.w * q.y)) - (2 * (q.x * q.y - q.w * q.z)) * (1 - 2 * (q.x ^ 2 + q.z ^ 2)) * (1 - 2 * (q.y ^ 2 + q.z ^ 2)) =
          (2 * (q.x * q.y + q.w * q.z)) * (1 - (2 * (q.x * q.y - q.w * q.z)) ^ 2) := by
          linear_combination (-8 * q.x * q.y * q.z ^ 2 + 4 * q.x * q.y + 8 * q.z ^ 3 * q.w) * hq
        rw [key, hsq]
        exact mul_div_cancel_right₀ _ (ne_of_gt ht2)
    case a22 =>
      simp only [hcA, hsA, hcB, hsB, hcC, hsC]
      field_simp
    case a23 =>
      simp only [hcA, hsA, hcB, hsB, hcC, hsC]
      trans (-((2 * (q.x * q.y - q.w * q.z)) * (1 - 2 * (q.x ^ 2 + q.z ^ 2)) * (2 * (q.x * q.z + q.w * q.y))) - (2 * (q.y * q.z + q.w * q.x)) * (1 - 2 * (q.y ^ 2 + q.z ^ 2))) /
        Real.sqrt (1 - (2 * (q.x * q.y - q.w * q.z)) ^ 2) ^ 2
      · ring1
      · have key : -((2 * (q.x * q.y - q.w * q.z)) * (1 - 2 * (q.x ^ 2 + q.z ^ 2)) * (2 * (q.x * q.z + q.w * q.y))) - (2 * (q.y * q.z + q.w * q.x)) * (1 - 2 * (q.y ^ 2 + q.z ^ 2)) =
          (2 * (q.y * q.z - q.w * q.x)) * (1 - (2 * (q.x * q.y - q.w * q.z)) ^ 2) := by
          linear_combination (8 * q.x ^ 2 * q.y * q.z - 8 * q.x * q.z ^ 2 * q.w + 4 * q.y * q.z) * hq
        rw [key, hsq]
        exact mul_div_cancel_right₀ _ (ne_of_gt ht2)
    case a31 =>
      simp only [hcA, hsA, hcB, hsB, hcC, hsC]
      trans (-((2 * (q.x * q.y - q.w * q.z)) * (2 * (q.y * q.z + q.w * q.x)) * (1 - 2 * (q.y ^ 2 + q.z ^ 2))) - (1 - 2 * (q.x ^ 2 + q.z ^ 2)) * (2 * (q.x * q.z + q.w * q.y))) /
        Real.sqrt (1 - (2 * (q.x * q.y - q.w * q.z)) ^ 2) ^ 2
      · ring1
      · have key : -((2 * (q.x * q.y - q.w * q.z)) * (2 * (q.y * q.z + q.w * q.x)) * (1 - 2 * (q.y ^ 2 + q.z ^ 2))) - (1 - 2 * (q.x ^ 2 + q.z ^ 2)) * (2 * (q.x * q.z + q.w * q.y)) =
          (2 * (q.x * q.z - q.w * q.y)) * (1 - (2 * (q.x * q.y - q.w * q.z)) ^ 2) := by
          linear_combination (8 * q.x * q.y ^ 2 * q.z + 4 * q.x * q.z - 8 * q.y * q.z ^ 2 * q.w) * hq
        rw [key, hsq]
        exact mul_div_cancel_right₀ _ (ne_of_gt ht2)
    case a32 =>
      simp only [hcA, hsA, hcB, hsB, hcC, hsC]
      field_simp
    case a33 =>
      simp only [hcA, hsA, hcB, hsB, hcC, hsC]
      trans ((1 - 2 * (q.x ^ 2 + q.z ^ 2)) * (1 - 2 * (q.y ^ 2 + q.z ^ 2)) - (2 * (q.x * q.y - q.w * q.z)) * (2 * (q.y * q.z + q.w * q.x)) * (2 * (q.x * q.z + q.w * q.y))) /
        Real.sqrt (1 - (2 * (q.x * q.y - q.w * q.z)) ^ 2) ^ 2
      · ring1
      · have key : (1 - 2 * (q.x ^ 2 + q.z ^ 2)) * (1 - 2 * (q.y ^ 2 + q.z ^ 2)) - (2 * (q.x * q.y - q.w * q.z)) * (2 * (q.y * q.z + q.w * q.x)) * (2 * (q.x * q.z + q.w * q.y)) =
          (1 - 2 * (q.x ^ 2 + q.y ^ 2)) * (1 - (2 * (q.x * q.y - q.w * q.z)) ^ 2) := by
          linear_combination (-8 * q.x ^ 2 * q.y ^ 2 + 8 * q.x * q.y * q.z * q.w + 4 * q.z ^ 2) * hq
        rw [key, hsq]
        exact mul_div_cancel_right₀ _ (ne_of_gt ht2)

/-- The rotation-matrix entry whose magnitude three.js
`Euler.setFromRotationMatrix` tests against `0.9999999` to decide the
gimbal-lock branch for each order. -/
noncomputable def lockValue (q : Quat) (order : EulerOrder) : ℝ :=
  match order with
  | .XYZ => (makeRotationFromQuaternion q).e8
  | .YXZ => (makeRotationFromQuaternion q).e9
  | .ZXY => (makeRotationFromQuaternion q).e6
  | .ZYX => (makeRotationFromQuaternion q).e2
  | .YZX => (makeRotationFromQuaternion q).e1
  | .XZY => (makeRotationFromQuaternion q).e4

/-- C5: for every unit quaternion and each of the six orders, converting to
Euler angles and back recovers the quaternion up to a global sign flip,
whenever the code's gimbal-lock branch is not taken (the lock entry of the
rotation matrix is below the `0.9999999` threshold of the three.js source). -/
theorem euler_quaternion_roundtrip (q : Quat) (order : EulerOrder)
    (hmag : quaternionMagnitude q = 1)
    (hlock : |lockValue q order| < 0.9999999) :
    eulerToQuaternion (quaternionToEuler q order).x (quaternionToEuler q order).y
        (quaternionToEuler q order).z order = q ∨
      eulerToQuaternion (quaternionToEuler q order).x (quaternionToEuler q order).y
        (quaternionToEuler q order).z order = q.neg := by
  have hq0 : qnorm2 q = 1 := qnorm2_of_magnitude_one q hmag
  cases order
  case XYZ =>
    refine roundtrip_XYZ q hq0 ?_
    have he : lockValue q .XYZ = 2 * (q.x * q.z + q.w * q.y) := by
      simp only [lockValue]
      rw [makeRotationFromQuaternion_eq]
      rfl
    exact he ▸ hlock
  case XZY =>
    refine roundtrip_XZY q hq0 ?_
    have he : lockValue q .XZY = 2 * (q.x * q.y - q.w * q.z) := by
      simp only [lockValue]
      rw [makeRotationFromQuaternion_eq]
      rfl
    exact he ▸ hlock
  case YXZ =>
    refine roundtrip_YXZ q hq0 ?_
    have he : lockValue q .YXZ = 2 * (q.y * q.z - q.w * q.x) := by
      simp only [lockValue]
      rw [makeRotationFromQuaternion_eq]
      rfl
    exact he ▸ hlock
  case YZX =>
    refine roundtrip_YZX q hq0 ?_
    have he : lockValue q .YZX = 2 * (q.x * q.y + q.w * q.z) := by
      simp only [lockValue]
      rw [makeRotationFromQuaternion_eq]
      rfl
    exact he ▸ hlock
  case ZXY =>
    refine roundtrip_ZXY q hq0 ?_
    have he : lockValue q .ZXY = 2 * (q.y * q.z + q.w * q.x) := by
      simp only [lockValue]
      rw [makeRotationFromQuaternion_eq]
      rfl
    exact he ▸ hlock
  case ZYX =>
    refine roundtrip_ZYX q hq0 ?_
    have he : lockValue q .ZYX = 2 * (q.x * q.z - q.w * q.y) := by
      simp only [lockValue]
      rw [makeRotationFromQuaternion_eq]
      rfl
    exact he ▸ hlock

/-- C5 witness: the identity quaternion with order XYZ is unit and away from
gimbal lock, and round-trips. -/
theorem euler_quaternion_roundtrip_witness :
    eulerToQuaternion (quaternionToEuler ⟨0, 0, 0, 1⟩ .XYZ).x
        (quaternionToEuler ⟨0, 0, 0, 1⟩ .XYZ).y
        (quaternionToEuler ⟨0, 0, 0, 1⟩ .XYZ).z .XYZ = (⟨0, 0, 0, 1⟩ : Quat) ∨
      eulerToQuaternion (quaternionToEuler ⟨0, 0, 0, 1⟩ .XYZ).x
        (quaternionToEuler ⟨0, 0, 0, 1⟩ .XYZ).y
        (quaternionToEuler ⟨0, 0, 0, 1⟩ .XYZ).z .XYZ = (⟨0, 0, 0, 1⟩ : Quat).neg :=
  euler_quaternion_roundtrip ⟨0, 0, 0, 1⟩ .XYZ
    (by unfold quaternionMagnitude; norm_num)
    (by
      simp only [lockValue, makeRotationFromQuaternion, Matrix4.compose]
      norm_num)

end Poses
